import Mathlib

/-!
Verification development for the media-analyst repository
(src/media_analyst/core/parser.py and src/media_analyst/core/models.py).

The Python code is shallowly embedded: JSON/Python scalar values become the
inductive type `PyVal`, Python dicts become ordered association lists,
`datetime` objects become the record `PyDateTime`, raisable Python calls
return `Except PyErr`, and pydantic model construction is embedded as a
field-by-field validation that either yields the model record or the first
validation error (only success/failure of construction is observable through
`parse_post` / `parse_comment`, which swallow all exceptions).

Modelling conventions, stated once:
- `datetime.fromtimestamp` converts using the platform local timezone; it is
  modelled at UTC (offset zero).  All other datetime behaviour (range checks,
  raising on out-of-range years) follows CPython on 64-bit Linux.
- Python `int(str)` accepts ASCII digits with optional sign, surrounding
  whitespace and single underscores between digits; non-ASCII digit forms are
  not modelled.
- `datetime.fromisoformat` is modelled on the subset of ISO-8601 strings of
  the shapes YYYY-MM-DD, YYYY-MM-DD(T or space)HH:MM, HH:MM:SS, each
  optionally followed by a numeric +HH:MM / -HH:MM offset.
- Python floats are not part of the embedded value universe.
-/

/-- A civil datetime as carried by Python `datetime`: six calendar fields and
an optional fixed utc offset in minutes (`none` models a naive datetime). -/
structure PyDateTime where
  year : Nat
  month : Nat
  day : Nat
  hour : Nat
  minute : Nat
  second : Nat
  tzOffsetMinutes : Option Int
  deriving DecidableEq

/-- Packs the six calendar fields into one natural number so that the numeric
order on ranks coincides with the lexicographic comparison Python datetime
uses, for every datetime Python can actually represent (month at most 12,
day at most 31, hour at most 23, minute and second at most 59). -/
def PyDateTime.rank (d : PyDateTime) : Nat :=
  ((((d.year * 16 + d.month) * 32 + d.day) * 32 + d.hour) * 64 + d.minute) * 64 + d.second

/-- The strict comparison `a < b` between two (naive) datetimes. -/
def pyDtLt (a b : PyDateTime) : Bool := a.rank < b.rank

/-- The comparison `a <= b` between two (naive) datetimes. -/
def pyDtLe (a b : PyDateTime) : Bool := a.rank ≤ b.rank

/-- The universe of embedded Python values: JSON scalars and containers plus
datetime objects.  Python dicts are ordered association lists. -/
inductive PyVal where
  | null
  | bool (b : Bool)
  | int (n : Int)
  | str (s : String)
  | list (xs : List PyVal)
  | dict (fields : List (String × PyVal))
  | dt (d : PyDateTime)

/-- A Python dict payload. -/
abbrev PyDict := List (String × PyVal)

/-- Python truthiness of an embedded value. -/
def pyTruthy : PyVal → Bool
  | .null => false
  | .bool b => b
  | .int n => n ≠ 0
  | .str s => s ≠ ""
  | .list [] => false
  | .list (_ :: _) => true
  | .dict [] => false
  | .dict (_ :: _) => true
  | .dt _ => true

/-- Key membership test, Python `k in data`. -/
def pyHasKey (d : PyDict) (k : String) : Bool :=
  d.any (fun p => p.1 = k)

/-- Python `data.get(k)`: the first binding for `k`, if any. -/
def pyGet (d : PyDict) (k : String) : Option PyVal :=
  (d.find? (fun p => p.1 = k)).map (·.2)

/-- Python `data.get(k, default)`. -/
def pyGetD (d : PyDict) (k : String) (dflt : PyVal) : PyVal :=
  (pyGet d k).getD dflt

/-- `_get_field(data, *field_names, default)`: first field that is present and
not None; otherwise the default (parser.py lines 178-193). -/
def getFieldD (d : PyDict) (names : List String) (dflt : PyVal) : PyVal :=
  match names with
  | [] => dflt
  | n :: rest =>
    match pyGet d n with
    | some .null => getFieldD d rest dflt
    | some v => v
    | none => getFieldD d rest dflt

/-- Python `v != 0` for the values the comment parsers can see. -/
def pyNeIntZero : PyVal → Bool
  | .int n => n ≠ 0
  | .bool b => b
  | _ => true

/-- Python `v != "0"` for the values the comment parsers can see. -/
def pyNeStrZero : PyVal → Bool
  | .str s => s ≠ "0"
  | _ => true

/-- Python `v is not None`. -/
def pyIsNotNone : PyVal → Bool
  | .null => false
  | _ => true

/-- Python `str(v)` for scalars (container reprs are simplified; no claim
inspects them). -/
def pyStr : PyVal → String
  | .null => "None"
  | .bool b => if b then "True" else "False"
  | .int n => toString n
  | .str s => s
  | .list _ => "[...]"
  | .dict _ => "{...}"
  | .dt _ => "datetime"

/-- The Python exceptions the embedded code can raise. -/
inductive PyErr where
  | valueError (msg : String)
  | overflowError (msg : String)
  | osError (msg : String)
  | typeError (msg : String)
  | attributeError (msg : String)
  | fileNotFoundError (msg : String)
  | jsonDecodeError (msg : String)
  deriving DecidableEq

/-- Python `str(e)` on an exception: its message. -/
def PyErr.message : PyErr → String
  | .valueError m => m
  | .overflowError m => m
  | .osError m => m
  | .typeError m => m
  | .attributeError m => m
  | .fileNotFoundError m => m
  | .jsonDecodeError m => m

/-- Whether an exception is a ValueError (the only class the timestamp
coercion catches around its numeric branch). -/
def PyErr.isValueError : PyErr → Bool
  | .valueError _ => true
  | _ => false

def exceptIsOk {α : Type} : Except PyErr α → Bool
  | .ok _ => true
  | .error _ => false

/-- Double-underscore rejection inside a Python integer literal. -/
def hasDoubleUnderscore : List Char → Bool
  | c1 :: c2 :: rest => (c1 = '_' && c2 = '_') || hasDoubleUnderscore (c2 :: rest)
  | _ => false

/-- Digit-group value of a Python integer literal body (digits with single
interior underscores). -/
def pyDigits? (cs : List Char) : Option Nat :=
  if cs = [] then none
  else if !cs.all (fun c => c.isDigit || c = '_') then none
  else if cs.head? = some '_' || cs.getLast? = some '_' then none
  else if hasDoubleUnderscore cs then none
  else some (cs.foldl (fun n c => if c = '_' then n else n * 10 + (c.toNat - 48)) 0)

/-- Python `int(s)` on a string: `some n` on success, `none` when `int`
raises ValueError. -/
def pyIntOfString? (s : String) : Option Int :=
  let cs := (s.toList.dropWhile Char.isWhitespace).reverse.dropWhile Char.isWhitespace |>.reverse
  match cs with
  | '+' :: rest => (pyDigits? rest).map Int.ofNat
  | '-' :: rest => (pyDigits? rest).map (fun n => -(n : Int))
  | rest => (pyDigits? rest).map Int.ofNat

/-- Civil date from a count of days since 1970-01-01 (proleptic Gregorian):
the standard era-based conversion. -/
def civilFromDays (z0 : Int) : Int × Nat × Nat :=
  let z := z0 + 719468
  let era := z.fdiv 146097
  let doe := z - era * 146097
  let yoe := (doe - doe.fdiv 1460 + doe.fdiv 36524 - doe.fdiv 146096).fdiv 365
  let y := yoe + era * 400
  let doy := doe - (365 * yoe + yoe.fdiv 4 - yoe.fdiv 100)
  let mp := (5 * doy + 2).fdiv 153
  let d := doy - (153 * mp + 2).fdiv 5 + 1
  let m := mp + (if mp < 10 then 3 else -9)
  (y + (if m ≤ 2 then 1 else 0), m.toNat, d.toNat)

/-- `datetime.fromtimestamp(ts)` (modelled at UTC).  CPython raises
OverflowError when the timestamp does not fit the C time types, OSError when
the converted year does not fit a C int, and ValueError when the year falls
outside datetime.min..datetime.max (years 1 to 9999). -/
def fromtimestamp (ts : Int) : Except PyErr PyDateTime :=
  if ts < -(2 ^ 63) ∨ 2 ^ 63 ≤ ts then
    .error (.overflowError "timestamp out of range for platform time_t")
  else
    let days := ts.fdiv 86400
    let rem := (ts.emod 86400).toNat
    let c := civilFromDays days
    let y := c.1
    if y > 2147485547 ∨ y < -2147481748 then
      .error (.osError "localtime failed")
    else if 1 ≤ y ∧ y ≤ 9999 then
      .ok ⟨y.toNat, c.2.1, c.2.2, rem / 3600, rem % 3600 / 60, rem % 60, none⟩
    else
      .error (.valueError "year is out of range")

/-- Whether a year is a Gregorian leap year. -/
def isLeapYear (y : Nat) : Bool :=
  (y % 4 = 0 && y % 100 ≠ 0) || y % 400 = 0

/-- Days in a month of a given year. -/
def daysInMonth (y m : Nat) : Nat :=
  if m = 2 then (if isLeapYear y then 29 else 28)
  else if m = 4 ∨ m = 6 ∨ m = 9 ∨ m = 11 then 30
  else 31

/-- Two-digit field of an ISO string. -/
def iso2? (c1 c2 : Char) : Option Nat :=
  if c1.isDigit && c2.isDigit then some ((c1.toNat - 48) * 10 + (c2.toNat - 48)) else none

/-- Parse the optional trailing +HH:MM / -HH:MM offset of an ISO string. -/
def isoOffset? (cs : List Char) : Option (Option Int) :=
  match cs with
  | [] => some none
  | sign :: o1 :: o2 :: ':' :: p1 :: p2 :: [] =>
    match iso2? o1 o2, iso2? p1 p2 with
    | some oh, some om =>
      if (sign = '+' || sign = '-') && oh ≤ 23 && om ≤ 59 then
        some (some (if sign = '-' then -((oh * 60 + om : Nat) : Int) else ((oh * 60 + om : Nat) : Int)))
      else none
    | _, _ => none
  | _ => none

/-- Parse the time-of-day part of an ISO string (HH:MM or HH:MM:SS plus an
optional offset). -/
def isoTime? (cs : List Char) : Option (Nat × Nat × Nat × Option Int) :=
  match cs with
  | h1 :: h2 :: ':' :: n1 :: n2 :: rest =>
    match iso2? h1 h2, iso2? n1 n2 with
    | some h, some n =>
      match rest with
      | ':' :: s1 :: s2 :: rest2 =>
        match iso2? s1 s2, isoOffset? rest2 with
        | some s, some off => if h ≤ 23 && n ≤ 59 && s ≤ 59 then some (h, n, s, off) else none
        | _, _ => none
      | _ =>
        match isoOffset? rest with
        | some off => if h ≤ 23 && n ≤ 59 then some (h, n, 0, off) else none
        | none => none
    | _, _ => none
  | _ => none

/-- `datetime.fromisoformat(s)`: `some` on success, `none` when it raises
ValueError (modelled subset, see file header). -/
def fromisoformat? (s : String) : Option PyDateTime :=
  match s.toList with
  | y1 :: y2 :: y3 :: y4 :: '-' :: m1 :: m2 :: '-' :: d1 :: d2 :: rest =>
    match iso2? y1 y2, iso2? y3 y4, iso2? m1 m2, iso2? d1 d2 with
    | some yh, some yl, some mo, some dd =>
      let y := yh * 100 + yl
      if 1 ≤ y && 1 ≤ mo && mo ≤ 12 && 1 ≤ dd && dd ≤ daysInMonth y mo then
        match rest with
        | [] => some ⟨y, mo, dd, 0, 0, 0, none⟩
        | sep :: t =>
          if sep = 'T' || sep = ' ' then
            match isoTime? t with
            | some (h, n, s2, off) => some ⟨y, mo, dd, h, n, s2, off⟩
            | none => none
          else none
      else none
    | _, _, _, _ => none
  | _ => none

/-- Replace every non-overlapping occurrence of a nonempty pattern, scanning
left to right (the semantics of Python str.replace).  Structural recursion
on a fuel argument so that the kernel can evaluate it; with fuel at least
the length of the text the fuel never runs out, since every step consumes at
least one character. -/
def pyReplaceLoop (pat rep : List Char) : Nat → List Char → List Char
  | 0, cs => cs
  | _ + 1, [] => []
  | fuel + 1, c :: rest =>
    if pat.isPrefixOf (c :: rest) ∧ pat ≠ [] then
      rep ++ pyReplaceLoop pat rep fuel ((c :: rest).drop pat.length)
    else
      c :: pyReplaceLoop pat rep fuel rest

/-- Python `s.replace(old, new)` for a nonempty pattern (executable stand-in
for String.replace, whose well-founded loop does not reduce in the kernel;
the code only ever replaces the nonempty pattern Z). -/
def pyStrReplace (s pat rep : String) : String :=
  if pat = "" then s
  else String.mk (pyReplaceLoop pat.toList rep.toList s.toList.length s.toList)

/-- The `parse_timestamp` field validator shared verbatim by `Post` and
`Comment` (models.py lines 428-449 and 520-539): null passes through, a
datetime passes through, an int (Python bools are ints) goes through
`fromtimestamp` unguarded, a string first tries `int` + `fromtimestamp`
catching only ValueError, then `fromisoformat` on the string with every Z
replaced by +00:00, returning null when that also fails; any other value
maps to null. -/
def parse_timestamp (v : PyVal) : Except PyErr (Option PyDateTime) :=
  match v with
  | .null => .ok none
  | .dt d => .ok (some d)
  | .bool b => (fromtimestamp (if b then 1 else 0)).map some
  | .int n => (fromtimestamp n).map some
  | .str s =>
    let isoBranch : Except PyErr (Option PyDateTime) :=
      .ok (fromisoformat? (pyStrReplace s "Z" "+00:00"))
    match pyIntOfString? s with
    | some n =>
      match fromtimestamp n with
      | .ok d => .ok (some d)
      | .error e => if e.isValueError then isoBranch else .error e
    | none => isoBranch
  | _ => .ok none

/-- The `parse_count` field validator shared verbatim by `Post` and `Comment`
(models.py lines 451-464 and 541-554): None to 0, ints returned unchanged
(including bools, which are ints in Python), strings parsed with `int` where
the empty string and ValueError give 0, anything else 0. -/
def parse_count (v : PyVal) : Except PyErr PyVal :=
  match v with
  | .null => .ok (.int 0)
  | .int n => .ok (.int n)
  | .bool b => .ok (.bool b)
  | .str s =>
    if s ≠ "" then
      match pyIntOfString? s with
      | some n => .ok (.int n)
      | none => .ok (.int 0)
    else .ok (.int 0)
  | _ => .ok (.int 0)

/-- The `parse_pictures` field validator of `Comment` (models.py lines
556-568): None to empty list, lists unchanged, strings split on commas with
trimming and empties dropped, anything else empty list. -/
def parse_pictures : PyVal → List PyVal
  | .null => []
  | .list xs => xs
  | .str s =>
    if s = "" then []
    else ((((s.splitOn ",").map String.trim).filter (fun u => u ≠ "")).map PyVal.str)
  | _ => []

-- =========================================================================
-- Platforms and platform detection (parser.py lines 27-108)
-- =========================================================================

/-- The platform enum of models.py. -/
inductive Platform where
  | xhs | dy | ks | bili | wb | tieba | zhihu
  deriving DecidableEq

/-- The string value of a platform enum member. -/
def Platform.value : Platform → String
  | .xhs => "xhs"
  | .dy => "dy"
  | .ks => "ks"
  | .bili => "bili"
  | .wb => "wb"
  | .tieba => "tieba"
  | .zhihu => "zhihu"

/-- PLATFORM_SIGNATURES in dict insertion order: platform, content-id fields,
user-id fields. -/
def PLATFORM_SIGNATURES : List (Platform × List String × List String) :=
  [ (.dy, ["aweme_id"], ["sec_uid"]),
    (.xhs, ["note_id"], ["user_id"]),
    (.bili, ["bvid", "video_id"], ["mid", "owner_mid"]),
    (.ks, ["photo_id", "work_id"], ["user_id", "author_id"]),
    (.wb, ["mid", "weibo_id"], ["user_id", "uid"]),
    (.tieba, ["thread_id", "post_id"], ["user_id"]),
    (.zhihu, ["question_id", "answer_id"], ["id", "uid"]) ]

/-- `detect_platform` (parser.py lines 38-74): comment disambiguation first,
then the first platform whose content-id field set meets the record keys. -/
def detect_platform (data : PyVal) : Option Platform :=
  match data with
  | .dict fs =>
    let signatureScan : Option Platform :=
      PLATFORM_SIGNATURES.findSome? (fun sig =>
        if sig.2.1.any (fun field => pyHasKey fs field) then some sig.1 else none)
    if pyHasKey fs "comment_id" then
      if pyHasKey fs "aweme_id" then some .dy
      else if pyHasKey fs "note_id" then some .xhs
      else signatureScan
    else signatureScan
  | _ => none

/-- The platform_map of `detect_platform_from_filename` in dict insertion
order. -/
def FILENAME_PLATFORM_MAP : List (String × Platform) :=
  [ ("douyin", .dy), ("dy", .dy), ("xiaohongshu", .xhs), ("xhs", .xhs),
    ("bilibili", .bili), ("bili", .bili), ("kuaishou", .ks), ("ks", .ks),
    ("weibo", .wb), ("wb", .wb), ("tieba", .tieba), ("zhihu", .zhihu) ]

/-- `detect_platform_from_filename` (parser.py lines 77-108): first map key
found as a substring of the lowercased filename. -/
def detect_platform_from_filename (filename : String) : Option Platform :=
  let lower := filename.toList.map Char.toLower
  FILENAME_PLATFORM_MAP.findSome? (fun e =>
    if e.1.toList.IsInfix lower then some e.2 else none)

-- =========================================================================
-- Canonical models (models.py Post and Comment) and pydantic validation
-- =========================================================================

/-- The canonical Post model (models.py lines 374-464). -/
structure Post where
  content_id : String
  platform : Platform
  content_type : String
  title : String
  desc : String
  content_url : String
  cover_url : String
  media_urls : List String
  create_time : Option PyDateTime
  last_modify_ts : Option Int
  user_id : String
  sec_uid : String
  short_user_id : String
  user_unique_id : String
  nickname : String
  avatar : String
  user_signature : String
  liked_count : Int
  collected_count : Int
  comment_count : Int
  share_count : Int
  ip_location : String
  source_keyword : String
  crawl_time : Option PyDateTime
  source_file : String
  raw_data : PyDict

/-- The canonical Comment model (models.py lines 467-568). -/
structure Comment where
  comment_id : String
  content_id : String
  platform : Platform
  content : String
  pictures : List String
  create_time : Option PyDateTime
  last_modify_ts : Option Int
  user_id : String
  sec_uid : String
  short_user_id : String
  user_unique_id : String
  nickname : String
  avatar : String
  user_signature : Option String
  like_count : Int
  sub_comment_count : Int
  parent_comment_id : Option String
  is_sub_comment : Bool
  ip_location : String
  crawl_time : Option PyDateTime
  source_file : String
  raw_data : PyDict

/-- Pydantic v2 (lax mode) validation of a `str` field: only strings are
accepted (in particular ints are rejected, unlike pydantic v1). -/
def vStr : PyVal → Except PyErr String
  | .str s => .ok s
  | _ => .error (.valueError "Input should be a valid string")

/-- Pydantic validation of an `Optional[str]` field. -/
def vOptStr : PyVal → Except PyErr (Option String)
  | .null => .ok none
  | .str s => .ok (some s)
  | _ => .error (.valueError "Input should be a valid string")

/-- Pydantic v2 (lax) validation of an `Optional[int]` field: ints pass,
bools are rejected, integer strings are coerced. -/
def vOptInt : PyVal → Except PyErr (Option Int)
  | .null => .ok none
  | .int n => .ok (some n)
  | .str s =>
    match pyIntOfString? s with
    | some n => .ok (some n)
    | none => .error (.valueError "Input should be a valid integer")
  | _ => .error (.valueError "Input should be a valid integer")

/-- Validation of an interaction-count field: the `parse_count` before-mode
validator runs first, then pydantic validates its result as `int` (a bool
passed through by `parse_count` is rejected there). -/
def vCount (v : PyVal) : Except PyErr Int := do
  let r ← parse_count v
  match r with
  | .int n => .ok n
  | _ => .error (.valueError "Input should be a valid integer")

/-- Validation of the `content_type` field against the ContentType str-enum
(video, note, article, unknown). -/
def vContentType : PyVal → Except PyErr String
  | .str s =>
    if s = "video" ∨ s = "note" ∨ s = "article" ∨ s = "unknown" then .ok s
    else .error (.valueError "Input should be a valid ContentType")
  | _ => .error (.valueError "Input should be a valid ContentType")

/-- Validation of the `pictures` field: the `parse_pictures` before-mode
validator runs first, then each element must be a string. -/
def vPictures (v : PyVal) : Except PyErr (List String) :=
  (parse_pictures v).mapM vStr

/-- The five common fields of `_extract_common_fields` (parser.py lines
196-204), still raw. -/
structure CommonRaw where
  user_id : PyVal
  nickname : PyVal
  avatar : PyVal
  ip_location : PyVal
  source_keyword : PyVal

/-- `_extract_common_fields` (parser.py lines 196-204). -/
def _extract_common_fields (d : PyDict) : CommonRaw :=
  { user_id := getFieldD d ["user_id", "uid", "author_id"] (.str "")
    nickname := getFieldD d ["nickname", "user_name", "author_name"] (.str "")
    avatar := getFieldD d ["avatar", "avatar_url", "user_avatar"] (.str "")
    ip_location := getFieldD d ["ip_location", "ip_label", "location"] (.str "")
    source_keyword := getFieldD d ["source_keyword", "keyword"] (.str "") }

/-- The media url list built by `_parse_douyin_post` / `_parse_xhs_post`:
a truthy primary url is appended as-is, then a truthy secondary value is
split on commas (raising AttributeError when it is not a string). -/
def buildMediaUrls (primary secondary : PyVal) : Except PyErr (List PyVal) := do
  let first := if pyTruthy primary then [primary] else []
  let rest ← (if pyTruthy secondary then
      match secondary with
      | .str s => .ok ((((s.splitOn ",").map String.trim).filter (fun u => u ≠ "")).map PyVal.str)
      | _ => .error (.attributeError "object has no attribute split")
    else .ok [])
  pure (first ++ rest)

/-- `_parse_douyin_post` (parser.py lines 211-245) followed by pydantic
validation of the Post construction. -/
def _parse_douyin_post (d : PyDict) : Except PyErr Post := do
  let common := _extract_common_fields d
  let video_url := pyGetD d "video_download_url" (.str "")
  let note_urls := pyGetD d "note_download_url" (.str "")
  let media ← buildMediaUrls video_url note_urls
  let content_id ← vStr (getFieldD d ["aweme_id"] (.str ""))
  let content_type ← vContentType (.str (if pyTruthy video_url then "video" else "note"))
  let title ← vStr (pyGetD d "title" (.str ""))
  let desc ← vStr (pyGetD d "desc" (.str ""))
  let content_url ← vStr (pyGetD d "aweme_url" (.str ""))
  let cover_url ← vStr (pyGetD d "cover_url" (.str ""))
  let media_urls ← media.mapM vStr
  let create_time ← parse_timestamp (pyGetD d "create_time" .null)
  let last_modify_ts ← vOptInt (pyGetD d "last_modify_ts" .null)
  let sec_uid ← vStr (pyGetD d "sec_uid" (.str ""))
  let short_user_id ← vStr (pyGetD d "short_user_id" (.str ""))
  let user_unique_id ← vStr (pyGetD d "user_unique_id" (.str ""))
  let user_signature ← vStr (pyGetD d "user_signature" (.str ""))
  let liked_count ← vCount (pyGetD d "liked_count" (.int 0))
  let collected_count ← vCount (pyGetD d "collected_count" (.int 0))
  let comment_count ← vCount (pyGetD d "comment_count" (.int 0))
  let share_count ← vCount (pyGetD d "share_count" (.int 0))
  let user_id ← vStr common.user_id
  let nickname ← vStr common.nickname
  let avatar ← vStr common.avatar
  let ip_location ← vStr common.ip_location
  let source_keyword ← vStr common.source_keyword
  pure { content_id, platform := .dy, content_type, title, desc, content_url,
         cover_url, media_urls, create_time, last_modify_ts, user_id, sec_uid,
         short_user_id, user_unique_id, nickname, avatar, user_signature,
         liked_count, collected_count, comment_count, share_count,
         ip_location, source_keyword, crawl_time := none, source_file := "",
         raw_data := d }

/-- `_parse_douyin_comment` (parser.py lines 248-271) followed by pydantic
validation of the Comment construction.  The no-parent sentinel here is the
string "0" (also the default for a missing field). -/
def _parse_douyin_comment (d : PyDict) : Except PyErr Comment := do
  let common := _extract_common_fields d
  let parent_id := pyGetD d "parent_comment_id" (.str "0")
  let comment_id ← vStr (getFieldD d ["comment_id", "cid"] (.str ""))
  let content_id ← vStr (getFieldD d ["aweme_id"] (.str ""))
  let content ← vStr (pyGetD d "content" (.str ""))
  let pictures ← vPictures (pyGetD d "pictures" (.str ""))
  let create_time ← parse_timestamp (pyGetD d "create_time" .null)
  let last_modify_ts ← vOptInt (pyGetD d "last_modify_ts" .null)
  let sec_uid ← vStr (pyGetD d "sec_uid" (.str ""))
  let short_user_id ← vStr (pyGetD d "short_user_id" (.str ""))
  let user_unique_id ← vStr (pyGetD d "user_unique_id" (.str ""))
  let user_signature ← vOptStr (pyGetD d "user_signature" .null)
  let like_count ← vCount (pyGetD d "like_count" (.int 0))
  let sub_comment_count ← vCount (pyGetD d "sub_comment_count" (.int 0))
  let parent_comment_id ← vOptStr (if pyNeStrZero parent_id then parent_id else .null)
  let is_sub_comment := pyIsNotNone parent_id && pyNeStrZero parent_id
  let user_id ← vStr common.user_id
  let nickname ← vStr common.nickname
  let avatar ← vStr common.avatar
  let ip_location ← vStr common.ip_location
  pure { comment_id, content_id, platform := .dy, content, pictures,
         create_time, last_modify_ts, user_id, sec_uid, short_user_id,
         user_unique_id, nickname, avatar, user_signature, like_count,
         sub_comment_count, parent_comment_id, is_sub_comment, ip_location,
         crawl_time := none, source_file := "", raw_data := d }

/-- `_parse_xhs_post` (parser.py lines 274-307) followed by pydantic
validation of the Post construction. -/
def _parse_xhs_post (d : PyDict) : Except PyErr Post := do
  let common := _extract_common_fields d
  let video_url := pyGetD d "video_url" (.str "")
  let image_urls := pyGetD d "image_list" (.str "")
  let media ← buildMediaUrls video_url image_urls
  let content_id ← vStr (getFieldD d ["note_id"] (.str ""))
  let content_type ← vContentType (pyGetD d "type" (.str "unknown"))
  let title ← vStr (pyGetD d "title" (.str ""))
  let desc ← vStr (pyGetD d "desc" (.str ""))
  let content_url ← vStr (pyGetD d "note_url" (.str ""))
  let media_urls ← media.mapM vStr
  let create_time ← parse_timestamp (pyGetD d "time" .null)
  let last_modify_ts ← vOptInt (pyGetD d "last_modify_ts" .null)
  let liked_count ← vCount (pyGetD d "liked_count" (.int 0))
  let collected_count ← vCount (pyGetD d "collected_count" (.int 0))
  let comment_count ← vCount (pyGetD d "comment_count" (.int 0))
  let share_count ← vCount (pyGetD d "share_count" (.int 0))
  let user_id ← vStr common.user_id
  let nickname ← vStr common.nickname
  let avatar ← vStr common.avatar
  let ip_location ← vStr common.ip_location
  let source_keyword ← vStr common.source_keyword
  pure { content_id, platform := .xhs, content_type, title, desc, content_url,
         cover_url := "", media_urls, create_time, last_modify_ts, user_id,
         sec_uid := "", short_user_id := "", user_unique_id := "", nickname,
         avatar, user_signature := "", liked_count, collected_count,
         comment_count, share_count, ip_location, source_keyword,
         crawl_time := none, source_file := "", raw_data := d }

/-- `_parse_xhs_comment` (parser.py lines 310-329) followed by pydantic
validation of the Comment construction.  The no-parent sentinel here is the
integer 0 (also the default), tested by truthiness for the reference and by
an is-not-None plus not-equal-0 test for the derived flag. -/
def _parse_xhs_comment (d : PyDict) : Except PyErr Comment := do
  let common := _extract_common_fields d
  let parent_id := pyGetD d "parent_comment_id" (.int 0)
  let comment_id ← vStr (getFieldD d ["comment_id", "id"] (.str ""))
  let content_id ← vStr (getFieldD d ["note_id"] (.str ""))
  let content ← vStr (pyGetD d "content" (.str ""))
  let pictures ← vPictures (pyGetD d "pictures" (.str ""))
  let create_time ← parse_timestamp (pyGetD d "create_time" .null)
  let last_modify_ts ← vOptInt (pyGetD d "last_modify_ts" .null)
  let like_count ← vCount (pyGetD d "like_count" (.int 0))
  let sub_comment_count ← vCount (pyGetD d "sub_comment_count" (.int 0))
  let parent_comment_id ← vOptStr (if pyTruthy parent_id then .str (pyStr parent_id) else .null)
  let is_sub_comment := pyIsNotNone parent_id && pyNeIntZero parent_id
  let user_id ← vStr common.user_id
  let nickname ← vStr common.nickname
  let avatar ← vStr common.avatar
  let ip_location ← vStr common.ip_location
  pure { comment_id, content_id, platform := .xhs, content, pictures,
         create_time, last_modify_ts, user_id, sec_uid := "",
         short_user_id := "", user_unique_id := "", nickname, avatar,
         user_signature := none, like_count, sub_comment_count,
         parent_comment_id, is_sub_comment, ip_location, crawl_time := none,
         source_file := "", raw_data := d }

/-- `_parse_bilibili_post` (parser.py lines 332-354).  The Post call passes
the keyword argument user_id explicitly while the splatted common-fields
dict also contains user_id, so Python raises TypeError on every input
before any model is constructed (none of the argument expressions can
raise first: they are total dict lookups and list building). -/
def _parse_bilibili_post (_d : PyDict) : Except PyErr Post :=
  .error (.typeError "Post got multiple values for keyword argument user_id")

/-- `_parse_bilibili_comment` (parser.py lines 357-377).  Same duplicate
user_id keyword argument as `_parse_bilibili_post`: TypeError on every
input. -/
def _parse_bilibili_comment (_d : PyDict) : Except PyErr Comment :=
  .error (.typeError "Comment got multiple values for keyword argument user_id")

/-- The POST_PARSERS registry (parser.py lines 381-385). -/
def POST_PARSERS : Platform → Option (PyDict → Except PyErr Post)
  | .dy => some _parse_douyin_post
  | .xhs => some _parse_xhs_post
  | .bili => some _parse_bilibili_post
  | _ => none

/-- The COMMENT_PARSERS registry (parser.py lines 387-391). -/
def COMMENT_PARSERS : Platform → Option (PyDict → Except PyErr Comment)
  | .dy => some _parse_douyin_comment
  | .xhs => some _parse_xhs_comment
  | .bili => some _parse_bilibili_comment
  | _ => none

/-- `parse_post` (parser.py lines 398-423): reject non-dicts, detect the
platform when not given, reject unregistered platforms, and swallow every
builder exception into None. -/
def parse_post (data : PyVal) (platform : Option Platform) : Option Post :=
  match data with
  | .dict fs =>
    match platform.orElse (fun _ => detect_platform data) with
    | some p =>
      match POST_PARSERS p with
      | some builder => (builder fs).toOption
      | none => none
    | none => none
  | _ => none

/-- `parse_comment` (parser.py lines 426-450): same shape as `parse_post`. -/
def parse_comment (data : PyVal) (platform : Option Platform) : Option Comment :=
  match data with
  | .dict fs =>
    match platform.orElse (fun _ => detect_platform data) with
    | some p =>
      match COMMENT_PARSERS p with
      | some builder => (builder fs).toOption
      | none => none
    | none => none
  | _ => none

-- =========================================================================
-- ParsedData, ingestion loop, files (models.py 571-694, parser.py 453-601)
-- =========================================================================

/-- The dictionary returned by the `deduplication_stats` property. -/
structure DedupStats where
  duplicate_posts : Nat
  duplicate_comments : Nat
  total_duplicates : Nat
  deriving DecidableEq

/-- The ParsedData container (models.py lines 571-588). -/
structure ParsedData where
  posts : List Post
  comments : List Comment
  platform : Option Platform
  total_records : Nat
  success_count : Nat
  error_count : Nat
  errors : List String

/-- The post deduplication key (platform value, content_id). -/
def postKey (p : Post) : String × String := (p.platform.value, p.content_id)

/-- The comment deduplication key (platform value, comment_id). -/
def commentKey (c : Comment) : String × String := (c.platform.value, c.comment_id)

/-- One `map[key] = value` style step on an insertion-ordered dict: an
existing binding keeps its position and is merged with the new value, a new
key is appended at the end (Python dict semantics). -/
def pyDictUpsert {α : Type} (key : α → String × String) (merge : α → α → α) :
    List ((String × String) × α) → α → List ((String × String) × α)
  | [], x => [(key x, x)]
  | (k, q) :: rest, x =>
    if k = key x then (k, merge q x) :: rest
    else (k, q) :: pyDictUpsert key merge rest x

/-- The dict-scan pattern of `ParsedData.deduplicate`: fold the records into
an insertion-ordered dict, merging records that share a key, then take
`list(map.values())`. -/
def lastWriteWins {α : Type} (key : α → String × String) (merge : α → α → α)
    (xs : List α) : List α :=
  (xs.foldl (pyDictUpsert key merge) []).map (·.2)

/-- The conflict resolution of `ParsedData.deduplicate` for posts (models.py
lines 655-667): with two non-null crawl times the strictly later one wins,
otherwise the later-encountered record wins. -/
def keepLaterPost (existing post : Post) : Post :=
  match post.crawl_time, existing.crawl_time with
  | some tn, some te => if pyDtLt te tn then post else existing
  | _, _ => post

/-- The conflict resolution of `ParsedData.deduplicate` for comments
(models.py lines 669-681). -/
def keepLaterComment (existing c : Comment) : Comment :=
  match c.crawl_time, existing.crawl_time with
  | some tn, some te => if pyDtLt te tn then c else existing
  | _, _ => c

/-- `ParsedData.deduplicate` (models.py lines 641-694): returns a new batch;
success_count becomes the deduplicated record count while total_records,
error_count and errors carry through. -/
def ParsedData.deduplicate (pd : ParsedData) : ParsedData :=
  let posts := lastWriteWins postKey keepLaterPost pd.posts
  let comments := lastWriteWins commentKey keepLaterComment pd.comments
  { posts := posts
    comments := comments
    platform := pd.platform
    total_records := pd.total_records
    success_count := posts.length + comments.length
    error_count := pd.error_count
    errors := pd.errors }

/-- One `keys[key] = keys.get(key, 0) + 1` style counting step on an
insertion-ordered dict. -/
def tallyBump : List ((String × String) × Nat) → (String × String) →
    List ((String × String) × Nat)
  | [], k => [(k, 1)]
  | (k0, n) :: rest, k =>
    if k0 = k then (k0, n + 1) :: rest
    else (k0, n) :: tallyBump rest k

/-- The per-key occurrence counts as built by `deduplication_stats`. -/
def tally (ks : List (String × String)) : List ((String × String) × Nat) :=
  ks.foldl tallyBump []

/-- `sum(1 for count in keys.values() if count > 1)`: the number of keys
that occur more than once. -/
def dupKeyCount (ks : List (String × String)) : Nat :=
  ((tally ks).filter (fun e => 1 < e.2)).length

/-- The `deduplication_stats` property (models.py lines 612-639). -/
def ParsedData.deduplication_stats (pd : ParsedData) : DedupStats :=
  let dp := dupKeyCount (pd.posts.map postKey)
  let dc := dupKeyCount (pd.comments.map commentKey)
  { duplicate_posts := dp, duplicate_comments := dc, total_duplicates := dp + dc }

/-- The running state of the record loop of `parse_json_file` (parser.py
lines 491-539). -/
structure LoopState where
  posts : List Post
  comments : List Comment
  errors : List String
  detected : Option Platform

/-- One iteration of the record loop of `parse_json_file`: non-dicts become
an error; the comment-vs-post heuristic picks one builder; a successful
record is annotated with the capture time and source file when either is
truthy and may set the batch platform; a failed record becomes an indexed
error. -/
def stepRecord (pfn : Option Platform) (ct : Option PyDateTime) (sf : String)
    (st : LoopState) (ir : Nat × PyVal) : LoopState :=
  let idx := ir.1
  let record := ir.2
  match record with
  | .dict fs =>
    let detected := pfn.orElse (fun _ => detect_platform record)
    let is_comment := pyHasKey fs "comment_id" ||
      (pyHasKey fs "content" && pyHasKey fs "parent_comment_id")
    if is_comment then
      match parse_comment record detected with
      | some c =>
        let c := if ct.isSome || sf ≠ "" then
            { c with crawl_time := ct, source_file := sf } else c
        { st with comments := st.comments ++ [c],
                  detected := st.detected.orElse (fun _ => some c.platform) }
      | none =>
        { st with errors := st.errors ++
            ["第 " ++ toString (idx + 1) ++ " 条记录无法识别平台或格式"] }
    else
      match parse_post record detected with
      | some p =>
        let p := if ct.isSome || sf ≠ "" then
            { p with crawl_time := ct, source_file := sf } else p
        { st with posts := st.posts ++ [p],
                  detected := st.detected.orElse (fun _ => some p.platform) }
      | none =>
        { st with errors := st.errors ++
            ["第 " ++ toString (idx + 1) ++ " 条记录无法识别平台或格式"] }
  | _ =>
    { st with errors := st.errors ++
        ["第 " ++ toString (idx + 1) ++ " 条记录不是字典类型"] }

/-- The record loop plus the ParsedData assembly of `parse_json_file`
(parser.py lines 491-549). -/
def parseRecords (pfn : Option Platform) (ct : Option PyDateTime) (sf : String)
    (records : List PyVal) : ParsedData :=
  let st := records.enum.foldl (stepRecord pfn ct sf) ⟨[], [], [], none⟩
  { posts := st.posts
    comments := st.comments
    platform := st.detected
    total_records := records.length
    success_count := st.posts.length + st.comments.length
    error_count := st.errors.length
    errors := st.errors }

/-- What the filesystem supplies for one path: a missing file, a file whose
text fails JSON decoding (with the decode error message), or a decoded JSON
value. -/
inductive FileContent where
  | missing
  | badJson (msg : String)
  | json (v : PyVal)

/-- A file as seen by `parse_json_file`: its path, its content, and the
capture time that `extract_crawl_time_from_filename` yields for it (that
helper mixes filename regexes with a filesystem mtime fallback; no claim
depends on its value, so it is a model input here). -/
structure ModelFile where
  path : String
  content : FileContent
  crawlTime : Option PyDateTime

/-- Python type names as printed into the unsupported-format error message
(simplified spelling). -/
def pyTypeName : PyVal → String
  | .null => "NoneType"
  | .bool _ => "bool"
  | .int _ => "int"
  | .str _ => "str"
  | .list _ => "list"
  | .dict _ => "dict"
  | .dt _ => "datetime"

/-- The top-level JSON shaping of `parse_json_file` (parser.py lines
479-483): a dict becomes a one-element list, a list stays, anything else is
a ValueError. -/
def toRecordList : PyVal → Except PyErr (List PyVal)
  | .dict fs => .ok [.dict fs]
  | .list xs => .ok xs
  | v => .error (.valueError ("不支持的 JSON 格式: " ++ pyTypeName v))

/-- `parse_json_file` (parser.py lines 453-555): raises FileNotFoundError
for a missing file, JSONDecodeError for malformed JSON and ValueError for a
top-level value that is neither object nor array; otherwise runs the record
loop and optionally deduplicates when any record was produced. -/
def parse_json_file (f : ModelFile) (dedup : Bool) : Except PyErr ParsedData :=
  match f.content with
  | .missing => .error (.fileNotFoundError ("文件不存在: " ++ f.path))
  | .badJson m => .error (.jsonDecodeError m)
  | .json v => do
    let data ← toRecordList v
    let pfn := detect_platform_from_filename f.path
    let result := parseRecords pfn f.crawlTime f.path data
    if dedup && (!result.posts.isEmpty || !result.comments.isEmpty) then
      .ok result.deduplicate
    else
      .ok result

/-- The running accumulators of `parse_json_files` (parser.py lines
569-585). -/
structure MergeState where
  posts : List Post
  comments : List Comment
  errors : List String
  total : Nat
  detected : Option Platform

/-- One file of the `parse_json_files` loop: a successful single-file parse
extends every accumulator, while any exception becomes exactly one error
string prefixed with the path. -/
def stepFile (st : MergeState) (f : ModelFile) : MergeState :=
  match parse_json_file f false with
  | .ok r =>
    { posts := st.posts ++ r.posts
      comments := st.comments ++ r.comments
      errors := st.errors ++ r.errors
      total := st.total + r.total_records
      detected := match st.detected with
        | some p => some p
        | none => r.platform }
  | .error e =>
    { st with errors := st.errors ++ [f.path ++ ": " ++ e.message] }

/-- `parse_json_files` (parser.py lines 558-601): per-file ingestion behind
a per-file error boundary, concatenation of the results, then an optional
final deduplication. -/
def parse_json_files (files : List ModelFile) (dedup : Bool) : ParsedData :=
  let st := files.foldl stepFile ⟨[], [], [], 0, none⟩
  let merged : ParsedData :=
    { posts := st.posts
      comments := st.comments
      platform := st.detected
      total_records := st.total
      success_count := st.posts.length + st.comments.length
      error_count := st.errors.length
      errors := st.errors }
  if dedup && (!st.posts.isEmpty || !st.comments.isEmpty) then
    merged.deduplicate
  else
    merged

-- =========================================================================
-- Association-list lemmas for the insertion-ordered dict scans
-- =========================================================================

def alLookup {α : Type} (m : List ((String × String) × α)) (k : String × String) :
    Option α :=
  (m.find? (fun e => e.1 = k)).map (·.2)

def keyGroup {α : Type} (key : α → String × String) (xs : List α)
    (k : String × String) : List α :=
  xs.filter (fun a => key a = k)

theorem alLookup_nil {α : Type} (k : String × String) :
    alLookup ([] : List ((String × String) × α)) k = none := rfl

theorem alLookup_cons {α : Type} (e : (String × String) × α)
    (m : List ((String × String) × α)) (k : String × String) :
    alLookup (e :: m) k = if e.1 = k then some e.2 else alLookup m k := by
  by_cases h : e.1 = k <;> simp [alLookup, List.find?, h]

theorem lookup_upsert {α : Type} (key : α → String × String) (merge : α → α → α)
    (m : List ((String × String) × α)) (x : α) (k : String × String) :
    alLookup (pyDictUpsert key merge m x) k =
      if k = key x then
        some ((alLookup m k).elim x (fun q => merge q x))
      else alLookup m k := by
  induction m with
  | nil =>
    by_cases h : k = key x
    · simp [pyDictUpsert, alLookup_cons, alLookup_nil, h]
    · have hs : ¬ (key x = k) := fun hh => h hh.symm
      simp [pyDictUpsert, alLookup_cons, alLookup_nil, h, hs]
  | cons e m ih =>
    by_cases h1 : e.1 = key x
    · by_cases h2 : e.1 = k
      · have hk : k = key x := h2 ▸ h1
        simp [pyDictUpsert, h1, alLookup_cons, h2, hk]
      · have hk : ¬ (k = key x) := fun hh => h2 (h1.trans hh.symm)
        have hks : ¬ (key x = k) := fun hh => hk hh.symm
        simp [pyDictUpsert, h1, alLookup_cons, h2, hk, hks]
    · by_cases h2 : e.1 = k
      · have hk : ¬ (k = key x) := fun hh => h1 (h2.trans hh)
        simp [pyDictUpsert, h1, alLookup_cons, h2, hk]
      · simp [pyDictUpsert, h1, alLookup_cons, h2, ih]

theorem keys_upsert {α : Type} (key : α → String × String) (merge : α → α → α)
    (m : List ((String × String) × α)) (x : α) :
    (pyDictUpsert key merge m x).map (·.1) =
      if key x ∈ m.map (·.1) then m.map (·.1) else m.map (·.1) ++ [key x] := by
  induction m with
  | nil => simp [pyDictUpsert]
  | cons e m ih =>
    by_cases h1 : e.1 = key x
    · simp [pyDictUpsert, h1]
    · have h1x : ¬ (key x = e.1) := fun hh => h1 hh.symm
      by_cases h2 : key x ∈ m.map (·.1) <;>
        simp [pyDictUpsert, h1, h1x, h2, ih]

theorem nodup_keys_upsert {α : Type} (key : α → String × String) (merge : α → α → α)
    (m : List ((String × String) × α)) (x : α)
    (h : (m.map (·.1)).Nodup) : ((pyDictUpsert key merge m x).map (·.1)).Nodup := by
  rw [keys_upsert]
  by_cases hm : key x ∈ m.map (·.1)
  · simpa [hm] using h
  · simp only [hm, if_false, List.nodup_append]
    refine ⟨h, List.nodup_singleton _, ?_⟩
    intro a ha hb
    simp at hb
    subst hb
    exact hm ha

def KeyInv {α : Type} (key : α → String × String)
    (m : List ((String × String) × α)) : Prop :=
  ∀ e ∈ m, key e.2 = e.1

theorem keyInv_upsert {α : Type} (key : α → String × String) (merge : α → α → α)
    (hmerge : ∀ a b, key a = key b → key (merge a b) = key b)
    (m : List ((String × String) × α)) (x : α)
    (h : KeyInv key m) : KeyInv key (pyDictUpsert key merge m x) := by
  induction m with
  | nil =>
    intro e he
    simp [pyDictUpsert] at he
    subst he
    rfl
  | cons e0 m ih =>
    have hev : key e0.2 = e0.1 := h e0 (by simp)
    have hm : KeyInv key m := fun e he => h e (by simp [he])
    by_cases h1 : e0.1 = key x
    · intro e he
      simp [pyDictUpsert, h1] at he
      rcases he with he | he
      · subst he
        show key (key x, merge e0.2 x).2 = (key x, merge e0.2 x).1
        exact hmerge e0.2 x (by rw [hev, h1])
      · exact h e (by simp [he])
    · intro e he
      simp [pyDictUpsert, h1] at he
      rcases he with he | he
      · subst he; exact hev
      · exact ih hm e he

theorem lookup_foldl_upsert {α : Type} (key : α → String × String) (merge : α → α → α)
    (xs : List α) (m : List ((String × String) × α)) (k : String × String) :
    alLookup (xs.foldl (pyDictUpsert key merge) m) k =
      match alLookup m k with
      | some q => some ((keyGroup key xs k).foldl merge q)
      | none =>
        match keyGroup key xs k with
        | [] => none
        | a :: g => some (g.foldl merge a) := by
  induction xs generalizing m with
  | nil =>
    cases h : alLookup m k <;> simp [keyGroup, h]
  | cons x xs ih =>
    by_cases hxk : key x = k
    · have hgroup : keyGroup key (x :: xs) k = x :: keyGroup key xs k := by
        simp [keyGroup, hxk]
      have hlk : alLookup (pyDictUpsert key merge m x) k =
          some ((alLookup m k).elim x (fun q => merge q x)) := by
        rw [lookup_upsert]
        simp [hxk.symm]
      rw [List.foldl_cons, ih, hlk, hgroup]
      cases h : alLookup m k <;> simp
    · have hgroup : keyGroup key (x :: xs) k = keyGroup key xs k := by
        simp [keyGroup, hxk]
      have hlk : alLookup (pyDictUpsert key merge m x) k = alLookup m k := by
        rw [lookup_upsert]
        have : ¬ (k = key x) := fun hh => hxk hh.symm
        simp [this]
      rw [List.foldl_cons, ih, hlk, hgroup]
  
theorem nodup_keys_foldl_upsert {α : Type} (key : α → String × String)
    (merge : α → α → α) (xs : List α) (m : List ((String × String) × α))
    (h : (m.map (·.1)).Nodup) :
    ((xs.foldl (pyDictUpsert key merge) m).map (·.1)).Nodup := by
  induction xs generalizing m with
  | nil => exact h
  | cons x xs ih => exact ih _ (nodup_keys_upsert key merge m x h)

theorem keyInv_foldl_upsert {α : Type} (key : α → String × String)
    (merge : α → α → α)
    (hmerge : ∀ a b, key a = key b → key (merge a b) = key b)
    (xs : List α) (m : List ((String × String) × α))
    (h : KeyInv key m) : KeyInv key (xs.foldl (pyDictUpsert key merge) m) := by
  induction xs generalizing m with
  | nil => exact h
  | cons x xs ih => exact ih _ (keyInv_upsert key merge hmerge m x h)

theorem lookup_none_of_not_mem {α : Type}
    (m : List ((String × String) × α)) (k : String × String)
    (h : k ∉ m.map (·.1)) : alLookup m k = none := by
  induction m with
  | nil => rfl
  | cons e m ih =>
    have h1 : ¬ (k = e.1) := fun hh => h (by simp [hh])
    have h2 : k ∉ m.map (·.1) := fun hh => h (by simp [hh])
    have h3 : ¬ (e.1 = k) := fun hh => h1 hh.symm
    rw [alLookup_cons]
    simp [h3, ih h2]

theorem mem_keys_of_lookup {α : Type}
    (m : List ((String × String) × α)) (k : String × String) (v : α)
    (h : alLookup m k = some v) : k ∈ m.map (·.1) := by
  by_contra hc
  rw [lookup_none_of_not_mem m k hc] at h
  exact Option.noConfusion h

theorem values_filter_nil_of_not_mem {α : Type} (key : α → String × String)
    (m : List ((String × String) × α)) (k : String × String)
    (hinv : KeyInv key m) (h : k ∉ m.map (·.1)) :
    (m.map (·.2)).filter (fun a => key a = k) = [] := by
  induction m with
  | nil => rfl
  | cons e m ih =>
    have h1 : ¬ (k = e.1) := fun hh => h (by simp [hh])
    have h2 : k ∉ m.map (·.1) := fun hh => h (by simp [hh])
    have he : key e.2 = e.1 := hinv e (by simp)
    have hne : ¬ (key e.2 = k) := by
      rw [he]
      exact fun hh => h1 hh.symm
    simp only [List.map_cons, List.filter_cons]
    simp [hne, ih (fun x hx => hinv x (by simp [hx])) h2]

theorem values_filter_of_nodup {α : Type} (key : α → String × String)
    (m : List ((String × String) × α)) (k : String × String)
    (hn : (m.map (·.1)).Nodup) (hinv : KeyInv key m) :
    (m.map (·.2)).filter (fun a => key a = k) = (alLookup m k).toList := by
  induction m with
  | nil => rfl
  | cons e m ih =>
    have he : key e.2 = e.1 := hinv e (by simp)
    have hn2 : (m.map (·.1)).Nodup := (List.nodup_cons.mp hn).2
    have hnm : e.1 ∉ m.map (·.1) := (List.nodup_cons.mp hn).1
    have hinv2 : KeyInv key m := fun x hx => hinv x (by simp [hx])
    by_cases hk : e.1 = k
    · subst hk
      simp only [List.map_cons, List.filter_cons]
      rw [alLookup_cons]
      simp [he, values_filter_nil_of_not_mem key m e.1 hinv2 hnm]
    · simp only [List.map_cons, List.filter_cons]
      rw [alLookup_cons]
      have : ¬ (key e.2 = k) := by rw [he]; exact hk
      simp [this, hk, ih hn2 hinv2]

theorem lastWriteWins_filter {α : Type} (key : α → String × String)
    (merge : α → α → α)
    (hmerge : ∀ a b, key a = key b → key (merge a b) = key b)
    (xs : List α) (k : String × String) :
    (lastWriteWins key merge xs).filter (fun a => key a = k) =
      match keyGroup key xs k with
      | [] => []
      | a :: g => [g.foldl merge a] := by
  unfold lastWriteWins
  rw [values_filter_of_nodup key _ k
    (nodup_keys_foldl_upsert key merge xs [] (by simp))
    (keyInv_foldl_upsert key merge hmerge xs [] (by intro e he; simp at he))]
  rw [lookup_foldl_upsert]
  rw [alLookup_nil]
  cases keyGroup key xs k <;> simp

theorem upsert_not_mem {α : Type} (key : α → String × String) (merge : α → α → α)
    (m : List ((String × String) × α)) (x : α)
    (h : key x ∉ m.map (·.1)) :
    pyDictUpsert key merge m x = m ++ [(key x, x)] := by
  induction m with
  | nil => rfl
  | cons e m ih =>
    have h1 : ¬ (key x = e.1) := fun hh => h (by simp [hh])
    have h2 : key x ∉ m.map (·.1) := fun hh => h (by simp [hh])
    have h3 : ¬ (e.1 = key x) := fun hh => h1 hh.symm
    simp [pyDictUpsert, h3, ih h2]

theorem foldl_upsert_disjoint {α : Type} (key : α → String × String)
    (merge : α → α → α) (xs : List α) (m : List ((String × String) × α))
    (hd : ∀ a ∈ xs, key a ∉ m.map (·.1)) (hn : (xs.map key).Nodup) :
    xs.foldl (pyDictUpsert key merge) m = m ++ xs.map (fun x => (key x, x)) := by
  induction xs generalizing m with
  | nil => simp
  | cons x xs ih =>
    have hx : key x ∉ m.map (·.1) := hd x (by simp)
    have hn0 : (key x :: xs.map key).Nodup := by
      rw [← List.map_cons]
      exact hn
    have hn1 : key x ∉ xs.map key := (List.nodup_cons.mp hn0).1
    have hn2 : (xs.map key).Nodup := (List.nodup_cons.mp hn0).2
    rw [List.foldl_cons, upsert_not_mem key merge m x hx]
    rw [ih (m ++ [(key x, x)]) ?_ hn2]
    · simp
    · intro a ha
      simp only [List.map_append, List.mem_append]
      rintro (hmem | hmem)
      · exact hd a (by simp [ha]) hmem
      · simp at hmem
        exact hn1 (hmem ▸ List.mem_map_of_mem key ha)

theorem lastWriteWins_nodup_eq {α : Type} (key : α → String × String)
    (merge : α → α → α) (xs : List α) (hn : (xs.map key).Nodup) :
    lastWriteWins key merge xs = xs := by
  unfold lastWriteWins
  rw [foldl_upsert_disjoint key merge xs [] (by simp) hn]
  have hcomp : ((fun (e : (String × String) × α) => e.2) ∘ fun x => (key x, x)) =
      fun x : α => x := funext (fun _ => rfl)
  simp only [List.nil_append, List.map_map, hcomp]
  exact List.map_id' xs

theorem map_key_lastWriteWins_nodup {α : Type} (key : α → String × String)
    (merge : α → α → α)
    (hmerge : ∀ a b, key a = key b → key (merge a b) = key b)
    (xs : List α) : ((lastWriteWins key merge xs).map key).Nodup := by
  unfold lastWriteWins
  have hinv : KeyInv key (xs.foldl (pyDictUpsert key merge) []) :=
    keyInv_foldl_upsert key merge hmerge xs [] (by intro e he; simp at he)
  have hkeys : ((xs.foldl (pyDictUpsert key merge) []).map (·.2)).map key =
      (xs.foldl (pyDictUpsert key merge) []).map (·.1) := by
    rw [List.map_map]
    exact List.map_congr_left (fun e he => hinv e he)
  rw [hkeys]
  exact nodup_keys_foldl_upsert key merge xs [] (by simp)

theorem keepLaterPost_mem (a b : Post) :
    keepLaterPost a b = a ∨ keepLaterPost a b = b := by
  unfold keepLaterPost
  rcases hb : b.crawl_time with _ | tn <;> rcases ha : a.crawl_time with _ | te <;>
    simp [hb, ha]
  by_cases h : pyDtLt te tn <;> simp [h]

theorem keepLaterPost_key (a b : Post) (h : postKey a = postKey b) :
    postKey (keepLaterPost a b) = postKey b := by
  rcases keepLaterPost_mem a b with hm | hm <;> rw [hm]
  exact h

theorem foldl_keepLaterPost_mem (g : List Post) (a : Post) :
    g.foldl keepLaterPost a ∈ a :: g := by
  induction g generalizing a with
  | nil => simp
  | cons b g ih =>
    rw [List.foldl_cons]
    have h2 := ih (keepLaterPost a b)
    rcases List.mem_cons.mp h2 with h | h
    · rcases keepLaterPost_mem a b with hm | hm
      · exact List.mem_cons.mpr (Or.inl (h.trans hm))
      · simp [h.trans hm]
    · simp [h]

theorem foldl_keepLaterPost_rank (g : List Post) (a : Post) (t : PyDateTime)
    (ha : a.crawl_time = some t) (hall : ∀ x ∈ g, x.crawl_time.isSome) :
    ∃ tr, (g.foldl keepLaterPost a).crawl_time = some tr ∧ t.rank ≤ tr.rank ∧
      ∀ x ∈ g, ∀ tx, x.crawl_time = some tx → tx.rank ≤ tr.rank := by
  induction g generalizing a t with
  | nil => exact ⟨t, ha, le_refl _, by simp⟩
  | cons b g ih =>
    obtain ⟨tb, hb⟩ := Option.isSome_iff_exists.mp (hall b (by simp))
    have hstep : (keepLaterPost a b).crawl_time =
        some (if pyDtLt t tb then tb else t) := by
      simp only [keepLaterPost, hb, ha]
      by_cases h : pyDtLt t tb <;> simp [h, hb, ha]
    obtain ⟨tr, h1, h2, h3⟩ := ih (keepLaterPost a b) _ hstep
      (fun x hx => hall x (by simp [hx]))
    refine ⟨tr, h1, ?_, ?_⟩
    · refine le_trans ?_ h2
      split
      · rename_i hlt
        exact le_of_lt (by simpa [pyDtLt] using hlt)
      · exact le_refl _
    · intro x hx tx htx
      rcases List.mem_cons.mp hx with hx | hx
      · subst hx
        rw [hb] at htx
        cases htx
        refine le_trans ?_ h2
        split
        · exact le_refl _
        · rename_i hlt
          simp [pyDtLt] at hlt
          exact hlt
      · exact h3 x hx tx htx

theorem foldl_keepLaterPost_const (g : List Post) (a : Post) (t : PyDateTime)
    (ha : a.crawl_time = some t) (hall : ∀ x ∈ g, x.crawl_time = some t) :
    g.foldl keepLaterPost a = a := by
  induction g generalizing a with
  | nil => rfl
  | cons b g ih =>
    have hb : b.crawl_time = some t := hall b (by simp)
    have hstep : keepLaterPost a b = a := by
      unfold keepLaterPost
      rw [hb, ha]
      simp [pyDtLt]
    rw [List.foldl_cons, hstep]
    exact ih a ha (fun x hx => hall x (by simp [hx]))

theorem lookup_tallyBump (m : List ((String × String) × Nat))
    (k j : String × String) :
    alLookup (tallyBump m k) j =
      if j = k then some ((alLookup m k).getD 0 + 1) else alLookup m j := by
  induction m with
  | nil =>
    by_cases h : j = k
    · simp [tallyBump, alLookup_cons, alLookup_nil, h]
    · have hs : ¬ (k = j) := fun hh => h hh.symm
      simp [tallyBump, alLookup_cons, alLookup_nil, h, hs]
  | cons e m ih =>
    by_cases h1 : e.1 = k
    · by_cases h2 : e.1 = j
      · have hj : j = k := h2 ▸ h1
        simp [tallyBump, h1, alLookup_cons, h2, hj]
      · have hj : ¬ (j = k) := fun hh => h2 (h1.trans hh.symm)
        have hjs : ¬ (k = j) := fun hh => hj hh.symm
        simp [tallyBump, h1, alLookup_cons, h2, hj, hjs]
    · by_cases h2 : e.1 = j
      · have hj : ¬ (j = k) := fun hh => h1 (h2.trans hh)
        simp [tallyBump, h1, alLookup_cons, h2, hj]
      · simp [tallyBump, h1, alLookup_cons, h2, ih]

theorem keys_tallyBump (m : List ((String × String) × Nat)) (k : String × String) :
    (tallyBump m k).map (·.1) =
      if k ∈ m.map (·.1) then m.map (·.1) else m.map (·.1) ++ [k] := by
  induction m with
  | nil => simp [tallyBump]
  | cons e m ih =>
    by_cases h1 : e.1 = k
    · simp [tallyBump, h1]
    · have h1x : ¬ (k = e.1) := fun hh => h1 hh.symm
      by_cases h2 : k ∈ m.map (·.1) <;> simp [tallyBump, h1, h1x, h2, ih]

theorem nodup_keys_tallyBump (m : List ((String × String) × Nat))
    (k : String × String) (h : (m.map (·.1)).Nodup) :
    ((tallyBump m k).map (·.1)).Nodup := by
  rw [keys_tallyBump]
  by_cases hm : k ∈ m.map (·.1)
  · simpa [hm] using h
  · simp only [hm, if_false, List.nodup_append]
    refine ⟨h, List.nodup_singleton _, ?_⟩
    intro a ha hb
    simp at hb
    subst hb
    exact hm ha

theorem nodup_keys_tally (ks : List (String × String)) :
    ((tally ks).map (·.1)).Nodup := by
  suffices h : ∀ m : List ((String × String) × Nat), (m.map (·.1)).Nodup →
      ((ks.foldl tallyBump m).map (·.1)).Nodup by
    exact h [] (by simp)
  induction ks with
  | nil => intro m hm; exact hm
  | cons k ks ih => intro m hm; exact ih _ (nodup_keys_tallyBump m k hm)

/-- The number of occurrences of a key in a key list. -/
def occCount (ks : List (String × String)) (k : String × String) : Nat :=
  (ks.filter (fun j => j = k)).length

theorem occCount_nil (k : String × String) : occCount [] k = 0 := rfl

theorem occCount_cons (k0 : String × String) (ks : List (String × String))
    (k : String × String) :
    occCount (k0 :: ks) k = (if k0 = k then 1 else 0) + occCount ks k := by
  by_cases h : k0 = k
  · subst h
    simp [occCount, List.filter_cons]
    omega
  · simp [occCount, List.filter_cons, h]

theorem occCount_eq_zero_iff (ks : List (String × String)) (k : String × String) :
    occCount ks k = 0 ↔ k ∉ ks := by
  induction ks with
  | nil => simp [occCount_nil]
  | cons k0 ks ih =>
    rw [occCount_cons]
    by_cases h : k0 = k
    · simp [h]
    · simp only [h, if_false, Nat.zero_add, ih, List.mem_cons]
      constructor
      · intro hnm hor
        rcases hor with hor | hor
        · exact h hor.symm
        · exact hnm hor
      · intro hnm hmem
        exact hnm (Or.inr hmem)

theorem occCount_le_one_of_nodup (ks : List (String × String))
    (k : String × String) (h : ks.Nodup) : occCount ks k ≤ 1 := by
  induction ks with
  | nil => simp [occCount_nil]
  | cons k0 ks ih =>
    rw [occCount_cons]
    obtain ⟨hnm, hnd⟩ := List.nodup_cons.mp h
    by_cases hk : k0 = k
    · subst hk
      have hz : occCount ks k0 = 0 := (occCount_eq_zero_iff ks k0).mpr hnm
      simp [hz]
    · simpa [hk] using ih hnd

theorem lookup_foldl_tally (ks : List (String × String))
    (m : List ((String × String) × Nat)) (j : String × String) :
    alLookup (ks.foldl tallyBump m) j =
      match alLookup m j with
      | some n => some (n + occCount ks j)
      | none => if occCount ks j = 0 then none else some (occCount ks j) := by
  induction ks generalizing m with
  | nil => cases h : alLookup m j <;> simp [h, occCount_nil]
  | cons k ks ih =>
    rw [List.foldl_cons, ih, lookup_tallyBump, occCount_cons]
    by_cases hkj : j = k
    · subst hkj
      simp only [if_pos rfl]
      cases h : alLookup m j <;> (simp [h]; try omega)
    · have hkjs : ¬ (k = j) := fun hh => hkj hh.symm
      rw [if_neg hkj, if_neg hkjs]
      simp

theorem entry_lookup_of_nodup {α : Type} (m : List ((String × String) × α))
    (e : (String × String) × α) (hmem : e ∈ m)
    (hn : (m.map (·.1)).Nodup) : alLookup m e.1 = some e.2 := by
  induction m with
  | nil => simp at hmem
  | cons e0 m ih =>
    rcases List.mem_cons.mp hmem with h | h
    · subst h
      simp [alLookup_cons]
    · have hn1 : e0.1 ∉ m.map (·.1) := (List.nodup_cons.mp hn).1
      have hne : ¬ (e0.1 = e.1) := by
        intro hh
        exact hn1 (hh ▸ List.mem_map_of_mem (·.1) h)
      rw [alLookup_cons, if_neg hne]
      exact ih h (List.nodup_cons.mp hn).2

theorem tally_entry (ks : List (String × String)) (e : (String × String) × Nat)
    (hmem : e ∈ tally ks) : e.2 = occCount ks e.1 ∧ e.1 ∈ ks := by
  have hl := entry_lookup_of_nodup (tally ks) e hmem (nodup_keys_tally ks)
  rw [show tally ks = ks.foldl tallyBump [] from rfl, lookup_foldl_tally,
    alLookup_nil] at hl
  by_cases hc : occCount ks e.1 = 0
  · simp [hc] at hl
  · simp only [hc, if_false] at hl
    refine ⟨(Option.some.inj hl).symm, ?_⟩
    by_contra hmemk
    exact hc ((occCount_eq_zero_iff ks e.1).mpr hmemk)

theorem mem_keys_tally (ks : List (String × String)) (j : String × String) :
    j ∈ (tally ks).map (·.1) ↔ j ∈ ks := by
  constructor
  · intro h
    obtain ⟨e, he, hej⟩ := List.mem_map.mp h
    exact hej ▸ (tally_entry ks e he).2
  · intro h
    have hc : occCount ks j ≠ 0 := fun hz => (occCount_eq_zero_iff ks j).mp hz h
    have hlk : alLookup (tally ks) j = some (occCount ks j) := by
      rw [show tally ks = ks.foldl tallyBump [] from rfl, lookup_foldl_tally,
        alLookup_nil]
      simp [hc]
    exact mem_keys_of_lookup _ j _ hlk

theorem dupKeyCount_eq (ks : List (String × String)) :
    dupKeyCount ks = (ks.dedup.filter (fun k => 1 < occCount ks k)).length := by
  unfold dupKeyCount
  rw [← List.countP_eq_length_filter, ← List.countP_eq_length_filter]
  have h1 : (tally ks).countP (fun e => 1 < e.2) =
      (tally ks).countP (fun e => 1 < occCount ks e.1) := by
    apply List.countP_congr
    intro e he
    rw [(tally_entry ks e he).1]
  rw [h1]
  have h2 : (tally ks).countP (fun e => 1 < occCount ks e.1) =
      ((tally ks).map (·.1)).countP (fun k => 1 < occCount ks k) := by
    rw [List.countP_map]
    rfl
  rw [h2]
  have hperm : ((tally ks).map (·.1)).Perm ks.dedup := by
    rw [List.perm_ext_iff_of_nodup (nodup_keys_tally ks) (List.nodup_dedup ks)]
    intro a
    rw [mem_keys_tally, List.mem_dedup]
  exact hperm.countP_eq _

theorem dupKeyCount_eq_zero_of_nodup (ks : List (String × String))
    (h : ks.Nodup) : dupKeyCount ks = 0 := by
  rw [dupKeyCount_eq]
  have hnil : ks.dedup.filter (fun k => 1 < occCount ks k) = [] := by
    apply List.filter_eq_nil_iff.mpr
    intro k _
    have hle := occCount_le_one_of_nodup ks k h
    simp only [decide_eq_true_eq]
    omega
  simp [hnil]

-- =========================================================================
-- Claim theorems
-- =========================================================================

theorem parse_count_str (s : String) :
    parse_count (.str s) =
      .ok (.int (if s = "" then 0 else (pyIntOfString? s).getD 0)) := by
  unfold parse_count
  by_cases h : s = ""
  · simp [h]
  · cases hp : pyIntOfString? s <;> simp [h, hp]

/-- C7: the interaction-count coercion `parse_count` is total and never
raises: None maps to 0, an int is returned unchanged (a Python bool is an
int and is also returned unchanged), a string is parsed with `int` where the
empty and unparseable strings map to 0, and any other value maps to 0; in
particular "1000" maps to 1000, "" to 0, None to 0 and "abc" to 0. -/
theorem C7_parse_count_total :
    (∀ v : PyVal, ∃ r, parse_count v = .ok r) ∧
    parse_count .null = .ok (.int 0) ∧
    (∀ n : Int, parse_count (.int n) = .ok (.int n)) ∧
    (∀ b : Bool, parse_count (.bool b) = .ok (.bool b)) ∧
    (∀ s : String, parse_count (.str s) =
      .ok (.int (if s = "" then 0 else (pyIntOfString? s).getD 0))) ∧
    (∀ xs, parse_count (.list xs) = .ok (.int 0)) ∧
    (∀ fs, parse_count (.dict fs) = .ok (.int 0)) ∧
    parse_count (.str "1000") = .ok (.int 1000) ∧
    parse_count (.str "") = .ok (.int 0) ∧
    parse_count (.str "abc") = .ok (.int 0) := by
  refine ⟨?_, rfl, fun n => rfl, fun b => rfl, parse_count_str,
    fun xs => rfl, fun fs => rfl, ?_, rfl, ?_⟩
  · intro v
    cases v with
    | str s => exact ⟨_, parse_count_str s⟩
    | null => exact ⟨_, rfl⟩
    | bool b => exact ⟨_, rfl⟩
    | int n => exact ⟨_, rfl⟩
    | list xs => exact ⟨_, rfl⟩
    | dict fs => exact ⟨_, rfl⟩
    | dt d => exact ⟨_, rfl⟩
  · rfl
  · rfl

/-- C6 counterexample: the timestamp coercion is not exception-free on every
input: the Unix integer 400000000000 (a year far beyond 9999) makes
`datetime.fromtimestamp` raise, and the int branch of `parse_timestamp` has
no try/except, so the exception propagates. -/
theorem C6_cex_out_of_range_int_raises :
    exceptIsOk (parse_timestamp (.int 400000000000)) = false := by decide

/-- C6 (amended): the create_time coercion maps null to null, keeps datetime
values unchanged, interprets ints as Unix seconds (modelled at UTC) and
numeric strings likewise, gives non-numeric strings an ISO-8601 parse with
every Z replaced by a +00:00 offset, degrades unparseable strings to null,
and maps container values to null; it never raises on any of those inputs,
EXCEPT that an int whose instant falls outside the supported datetime range
propagates the exception raised by fromtimestamp, as does a numeric string
whose exception is not a ValueError (only ValueError is caught around the
numeric-string branch); Unix 1704067200 yields the year 2024. -/
theorem C6_parse_timestamp_amended :
    parse_timestamp .null = .ok none ∧
    (∀ d, parse_timestamp (.dt d) = .ok (some d)) ∧
    (∀ n d, fromtimestamp n = .ok d → parse_timestamp (.int n) = .ok (some d)) ∧
    (∀ n e, fromtimestamp n = .error e → parse_timestamp (.int n) = .error e) ∧
    (∀ s, pyIntOfString? s = none →
      parse_timestamp (.str s) = .ok (fromisoformat? (pyStrReplace s "Z" "+00:00"))) ∧
    (∀ s n d, pyIntOfString? s = some n → fromtimestamp n = .ok d →
      parse_timestamp (.str s) = .ok (some d)) ∧
    (∀ s n e, pyIntOfString? s = some n → fromtimestamp n = .error e →
      e.isValueError = true →
      parse_timestamp (.str s) = .ok (fromisoformat? (pyStrReplace s "Z" "+00:00"))) ∧
    (∀ s n e, pyIntOfString? s = some n → fromtimestamp n = .error e →
      e.isValueError = false → parse_timestamp (.str s) = .error e) ∧
    (∀ xs, parse_timestamp (.list xs) = .ok none) ∧
    (∀ fs, parse_timestamp (.dict fs) = .ok none) ∧
    parse_timestamp (.int 1704067200) = .ok (some ⟨2024, 1, 1, 0, 0, 0, none⟩) ∧
    parse_timestamp (.str "abc") = .ok none ∧
    parse_timestamp (.str "2024-01-02T03:04:05Z") =
      .ok (some ⟨2024, 1, 2, 3, 4, 5, some 0⟩) := by
  refine ⟨rfl, fun d => rfl, ?_, ?_, ?_, ?_, ?_, ?_, fun xs => rfl, fun fs => rfl,
    by rfl, by rfl, by rfl⟩
  · intro n d h
    simp only [parse_timestamp, h, Except.map]
  · intro n e h
    simp only [parse_timestamp, h, Except.map]
  · intro s h
    simp only [parse_timestamp, h]
  · intro s n d h1 h2
    simp only [parse_timestamp, h1, h2]
  · intro s n e h1 h2 h3
    simp only [parse_timestamp, h1, h2, h3, if_true]
  · intro s n e h1 h2 h3
    simp [parse_timestamp, h1, h2, h3]

/-- C6 witness: the amended characterization applied at concrete inputs:
Unix 0 parses to 1970-01-01, the numeric string "1000" parses through the
same conversion, and "abc" falls back to the (failing) ISO parse. -/
theorem C6_parse_timestamp_amended_witness :
    parse_timestamp (.int 0) = .ok (some ⟨1970, 1, 1, 0, 0, 0, none⟩) ∧
    parse_timestamp (.str "1000") = .ok (some ⟨1970, 1, 1, 0, 16, 40, none⟩) ∧
    parse_timestamp (.str "abc") =
      .ok (fromisoformat? (pyStrReplace "abc" "Z" "+00:00")) :=
  ⟨C6_parse_timestamp_amended.2.2.1 0 ⟨1970, 1, 1, 0, 0, 0, none⟩ (by rfl),
   C6_parse_timestamp_amended.2.2.2.2.2.1 "1000" 1000 ⟨1970, 1, 1, 0, 16, 40, none⟩
     (by rfl) (by rfl),
   C6_parse_timestamp_amended.2.2.2.2.1 "abc" (by rfl)⟩

/-- A minimal concrete Post used by counterexamples and witnesses. -/
def mkPostW (cid : String) (ct : Option PyDateTime) (sf : String) : Post :=
  { content_id := cid, platform := .dy, content_type := "note", title := "",
    desc := "", content_url := "", cover_url := "", media_urls := [],
    create_time := none, last_modify_ts := none, user_id := "", sec_uid := "",
    short_user_id := "", user_unique_id := "", nickname := "", avatar := "",
    user_signature := "", liked_count := 0, collected_count := 0,
    comment_count := 0, share_count := 0, ip_location := "",
    source_keyword := "", crawl_time := ct, source_file := sf, raw_data := [] }

/-- A batch holding the same post three times (one duplicated key with two
extra occurrences). -/
def tripleBatch : ParsedData :=
  { posts := [mkPostW "a" none "f1", mkPostW "a" none "f2", mkPostW "a" none "f3"],
    comments := [], platform := some .dy, total_records := 3,
    success_count := 3, error_count := 0, errors := [] }

/-- The count the spec describes, written from its words: for each distinct
key, the number of extra occurrences beyond the first, summed over keys. -/
def extraOccurrences (ks : List (String × String)) : Nat :=
  (ks.dedup.map (fun k => occCount ks k - 1)).sum

/-- C2 counterexample: on a batch holding one post three times, the
deduplication_stats view reports duplicate_posts = 1 (it counts keys that
occur more than once), while the total number of extra occurrences beyond
the first is 2; the claimed equality fails. -/
theorem C2_cex_triple_duplicate :
    tripleBatch.deduplication_stats.duplicate_posts = 1 ∧
    extraOccurrences (tripleBatch.posts.map postKey) = 2 ∧
    tripleBatch.deduplication_stats.duplicate_posts ≠
      extraOccurrences (tripleBatch.posts.map postKey) := by
  refine ⟨by decide, by decide, by decide⟩

/-- C2 (amended): for every batch, duplicate_posts is the number of distinct
(platform, content_id) keys that occur more than once among the posts (not
the number of extra occurrences), duplicate_comments likewise over
(platform, comment_id) keys of the comments, and total_duplicates is their
sum; the view is a pure function of the batch, so computing it neither
mutates nor deduplicates the batch. -/
theorem C2_dedup_stats_amended (pd : ParsedData) :
    pd.deduplication_stats.duplicate_posts =
      ((pd.posts.map postKey).dedup.filter
        (fun k => 1 < occCount (pd.posts.map postKey) k)).length ∧
    pd.deduplication_stats.duplicate_comments =
      ((pd.comments.map commentKey).dedup.filter
        (fun k => 1 < occCount (pd.comments.map commentKey) k)).length ∧
    pd.deduplication_stats.total_duplicates =
      pd.deduplication_stats.duplicate_posts +
        pd.deduplication_stats.duplicate_comments :=
  ⟨dupKeyCount_eq _, dupKeyCount_eq _, rfl⟩

/-- C10 (code bug in the bilibili builders): on DY and XHS, parsing the empty
record with the platform given succeeds and yields empty identifiers, but on
BILI — a platform with registered post and comment builders — parsing always
returns null: the builders pass user_id both explicitly and through the
splatted common-field dict, so Python raises TypeError on every input. -/
theorem C10_empty_record_builders :
    (parse_post (.dict []) (some .dy)).map Post.content_id = some "" ∧
    (parse_post (.dict []) (some .xhs)).map Post.content_id = some "" ∧
    (parse_comment (.dict []) (some .dy)).map
      (fun c => (c.comment_id, c.content_id)) = some ("", "") ∧
    (parse_comment (.dict []) (some .xhs)).map
      (fun c => (c.comment_id, c.content_id)) = some ("", "") ∧
    (POST_PARSERS .bili).isSome = true ∧
    (COMMENT_PARSERS .bili).isSome = true ∧
    (∀ d : PyDict, parse_post (.dict d) (some .bili) = none) ∧
    (∀ d : PyDict, parse_comment (.dict d) (some .bili) = none) :=
  ⟨rfl, rfl, rfl, rfl, rfl, rfl, fun _ => rfl, fun _ => rfl⟩

/-- Inversion of the XHS comment builder: a successfully built comment's
parent reference is the validated str()-or-None of the raw parent id by
truthiness, and its reply flag is the is-not-None and not-equal-int-0 test
of the raw parent id. -/
theorem xhs_parent_spec (d : PyDict) (c : Comment)
    (h : _parse_xhs_comment d = .ok c) :
    vOptStr (if pyTruthy (pyGetD d "parent_comment_id" (.int 0)) then
        .str (pyStr (pyGetD d "parent_comment_id" (.int 0))) else .null) =
      .ok c.parent_comment_id ∧
    c.is_sub_comment =
      (pyIsNotNone (pyGetD d "parent_comment_id" (.int 0)) &&
        pyNeIntZero (pyGetD d "parent_comment_id" (.int 0))) := by
  unfold _parse_xhs_comment at h
  simp only [bind, Except.bind] at h
  repeat' split at h
  all_goals try simp only [pure, Except.pure] at h
  all_goals cases h
  all_goals simp_all

/-- Inversion of the DY comment builder: a successfully built comment's
parent reference is the validated raw parent id with the string sentinel 0
mapped to None, and its reply flag is the is-not-None and not-equal-str-0
test of the raw parent id. -/
theorem dy_parent_spec (d : PyDict) (c : Comment)
    (h : _parse_douyin_comment d = .ok c) :
    vOptStr (if pyNeStrZero (pyGetD d "parent_comment_id" (.str "0")) then
        pyGetD d "parent_comment_id" (.str "0") else .null) =
      .ok c.parent_comment_id ∧
    c.is_sub_comment =
      (pyIsNotNone (pyGetD d "parent_comment_id" (.str "0")) &&
        pyNeStrZero (pyGetD d "parent_comment_id" (.str "0"))) := by
  unfold _parse_douyin_comment at h
  simp only [bind, Except.bind] at h
  repeat' split at h
  all_goals try simp only [pure, Except.pure] at h
  all_goals cases h
  all_goals simp_all

/-- A DY comment record whose raw parent id is neither a string nor null
never builds: pydantic rejects the non-string parent reference. -/
theorem dy_comment_rejects_nonstring_parent (d : PyDict) (v : PyVal)
    (hv : pyGet d "parent_comment_id" = some v)
    (hstr : ∀ s, v ≠ .str s) (hnull : v ≠ .null) :
    exceptIsOk (_parse_douyin_comment d) = false := by
  cases hres : _parse_douyin_comment d with
  | error e => rfl
  | ok c =>
    exfalso
    obtain ⟨hp, _⟩ := dy_parent_spec d c hres
    have hget : pyGetD d "parent_comment_id" (.str "0") = v := by
      simp [pyGetD, hv]
    rw [hget] at hp
    cases v with
    | null => exact hnull rfl
    | str s => exact hstr s rfl
    | int n => simp [pyNeStrZero, vOptStr] at hp
    | bool b => simp [pyNeStrZero, vOptStr] at hp
    | list xs => simp [pyNeStrZero, vOptStr] at hp
    | dict fs => simp [pyNeStrZero, vOptStr] at hp
    | dt dd => simp [pyNeStrZero, vOptStr] at hp

/-- C1 (amended): parent-id normalization per platform.  On DY (sentinel the
string "0", also the default): an absent, null or "0" raw parent id gives
parent_comment_id = None with is_sub_comment = False, any other raw string
s gives parent_comment_id = s with is_sub_comment = True, and a non-string
non-null raw parent id makes the build fail.  On XHS the sentinel is the
integer 0 tested by truthiness for the reference and by an is-not-None plus
not-equal-0 test for the flag, so the string "0" yields
parent_comment_id = "0" with is_sub_comment = True and the empty string
yields parent_comment_id = None with is_sub_comment = True: is_sub_comment
is NOT equivalent to a non-null parent_comment_id there.  On BILI no comment
ever builds (see C10).  The original claim's sentence that string "0" maps
to None/False on every platform with a registered builder is false. -/
theorem C1_parent_normalization_amended :
    (∀ d c, _parse_douyin_comment d = .ok c → pyGet d "parent_comment_id" = none →
      c.parent_comment_id = none ∧ c.is_sub_comment = false) ∧
    (∀ d c, _parse_douyin_comment d = .ok c →
      pyGet d "parent_comment_id" = some .null →
      c.parent_comment_id = none ∧ c.is_sub_comment = false) ∧
    (∀ d c s, _parse_douyin_comment d = .ok c →
      pyGet d "parent_comment_id" = some (.str s) →
      c.parent_comment_id = (if s = "0" then none else some s) ∧
      c.is_sub_comment = (if s = "0" then false else true)) ∧
    (∀ d v, pyGet d "parent_comment_id" = some v → (∀ s, v ≠ .str s) →
      v ≠ .null → exceptIsOk (_parse_douyin_comment d) = false) ∧
    (∀ d c, _parse_xhs_comment d = .ok c →
      c.parent_comment_id =
        (if pyTruthy (pyGetD d "parent_comment_id" (.int 0)) then
          some (pyStr (pyGetD d "parent_comment_id" (.int 0))) else none) ∧
      c.is_sub_comment =
        (pyIsNotNone (pyGetD d "parent_comment_id" (.int 0)) &&
          pyNeIntZero (pyGetD d "parent_comment_id" (.int 0)))) ∧
    (∀ d, exceptIsOk (_parse_bilibili_comment d) = false) := by
  refine ⟨?_, ?_, ?_, dy_comment_rejects_nonstring_parent, ?_, fun d => rfl⟩
  · intro d c h hget
    obtain ⟨hp, hs⟩ := dy_parent_spec d c h
    rw [show pyGetD d "parent_comment_id" (.str "0") = .str "0" by
      simp [pyGetD, hget]] at hp hs
    simp [pyNeStrZero, vOptStr] at hp hs
    exact ⟨hp.symm, hs⟩
  · intro d c h hget
    obtain ⟨hp, hs⟩ := dy_parent_spec d c h
    rw [show pyGetD d "parent_comment_id" (.str "0") = .null by
      simp [pyGetD, hget]] at hp hs
    simp [pyNeStrZero, vOptStr, pyIsNotNone] at hp hs
    exact ⟨hp.symm, hs⟩
  · intro d c s h hget
    obtain ⟨hp, hs⟩ := dy_parent_spec d c h
    rw [show pyGetD d "parent_comment_id" (.str "0") = .str s by
      simp [pyGetD, hget]] at hp hs
    by_cases h0 : s = "0"
    · subst h0
      simp [pyNeStrZero, vOptStr] at hp hs
      exact ⟨by simp [hp.symm], by simp [hs]⟩
    · simp [pyNeStrZero, vOptStr, h0, pyIsNotNone] at hp hs
      exact ⟨by simp [h0, hp.symm], by simp [h0, hs]⟩
  · intro d c h
    obtain ⟨hp, hs⟩ := xhs_parent_spec d c h
    refine ⟨?_, hs⟩
    by_cases ht : pyTruthy (pyGetD d "parent_comment_id" (.int 0))
    · rw [if_pos ht]
      rw [if_pos ht] at hp
      simp [vOptStr] at hp
      exact hp.symm
    · rw [if_neg ht]
      rw [if_neg ht] at hp
      simp [vOptStr] at hp
      exact hp.symm

def dyRec789 : PyDict := [("parent_comment_id", .str "789")]

def c789 : Comment :=
  { comment_id := "", content_id := "", platform := .dy, content := "",
    pictures := [], create_time := none, last_modify_ts := none,
    user_id := "", sec_uid := "", short_user_id := "", user_unique_id := "",
    nickname := "", avatar := "", user_signature := none, like_count := 0,
    sub_comment_count := 0, parent_comment_id := some "789",
    is_sub_comment := true, ip_location := "", crawl_time := none,
    source_file := "", raw_data := dyRec789 }

/-- C1 witness: the DY characterization applied to a concrete record with
raw parent id "789". -/
theorem C1_parent_normalization_amended_witness :
    c789.parent_comment_id = (if ("789" : String) = "0" then none else some "789") ∧
    c789.is_sub_comment = (if ("789" : String) = "0" then false else true) :=
  C1_parent_normalization_amended.2.2.1 dyRec789 c789 "789" (by rfl) (by rfl)

/-- C1 counterexample: on XHS, the raw parent id string "0" yields a
successfully built comment with parent_comment_id = "0" and
is_sub_comment = True, not None and False as the claim states. -/
theorem C1_cex_xhs_string_zero :
    (_parse_xhs_comment [("parent_comment_id", .str "0")]).map
      (fun c => (c.parent_comment_id, c.is_sub_comment)) =
      .ok (some "0", true) ∧ (some "0" : Option String) ≠ none :=
  ⟨rfl, by simp⟩

/-- Every iteration of the record loop produces exactly one post, comment
or error. -/
theorem stepRecord_len (pfn : Option Platform) (ct : Option PyDateTime)
    (sf : String) (st : LoopState) (ir : Nat × PyVal) :
    (stepRecord pfn ct sf st ir).posts.length +
      (stepRecord pfn ct sf st ir).comments.length +
      (stepRecord pfn ct sf st ir).errors.length =
    st.posts.length + st.comments.length + st.errors.length + 1 := by
  rcases ir with ⟨idx, rec⟩
  cases rec <;> simp only [stepRecord] <;> try (simp; omega)
  split
  all_goals split
  all_goals (simp; omega)

/-- Folding the record loop adds exactly one post-or-comment-or-error per
record. -/
theorem foldl_stepRecord_len (pfn : Option Platform) (ct : Option PyDateTime)
    (sf : String) (l : List (Nat × PyVal)) (st : LoopState) :
    (l.foldl (stepRecord pfn ct sf) st).posts.length +
      (l.foldl (stepRecord pfn ct sf) st).comments.length +
      (l.foldl (stepRecord pfn ct sf) st).errors.length =
      st.posts.length + st.comments.length + st.errors.length + l.length := by
  induction l generalizing st with
  | nil => simp
  | cons ir l ih =>
    simp only [List.foldl_cons, List.length_cons]
    have h1 := ih (stepRecord pfn ct sf st ir)
    have h2 := stepRecord_len pfn ct sf st ir
    omega

/-- The Scenario D file: a platform-neutral filename and three records of
which only the third parses (as a DY post). -/
def scenarioD : ModelFile :=
  ⟨"data.json",
   .json (.list [ .dict [("unknown_field", .int 1)], .str "not a dict",
     .dict [("aweme_id", .str "1"), ("nickname", .str "u")] ]),
   none⟩

/-- C5: for every single-file ingestion of a readable JSON file without
dedup, total_records is the number of input elements (a lone object counts
as one, via toRecordList), success_count is the number of posts plus
comments produced, error_count the number of error entries (one per element
that produced neither), and success_count + error_count = total_records;
Scenario D yields total 3, success 1, error 2. -/
theorem C5_single_file_counts :
    (∀ (f : ModelFile) (v : PyVal) (data : List PyVal) (r : ParsedData),
      f.content = .json v → toRecordList v = .ok data →
      parse_json_file f false = .ok r →
      r.total_records = data.length ∧
      r.success_count = r.posts.length + r.comments.length ∧
      r.error_count = r.errors.length ∧
      r.success_count + r.error_count = r.total_records) ∧
    (parse_json_file scenarioD false).map
      (fun r => (r.total_records, r.success_count, r.error_count)) =
      .ok (3, 1, 2) := by
  constructor
  · intro f v data r hcontent hdata hparse
    unfold parse_json_file at hparse
    rw [hcontent] at hparse
    simp only [bind, Except.bind, hdata, Bool.false_and, if_neg] at hparse
    have hr : r = parseRecords (detect_platform_from_filename f.path)
        f.crawlTime f.path data := by
      simp at hparse
      exact hparse.symm
    subst hr
    refine ⟨rfl, rfl, rfl, ?_⟩
    have h := foldl_stepRecord_len (detect_platform_from_filename f.path)
      f.crawlTime f.path data.enum ⟨[], [], [], none⟩
    simp only [parseRecords]
    simp only [List.length_nil] at h
    have henum : data.enum.length = data.length := List.enum_length
    omega
  · rfl

def emptyFile : ModelFile := ⟨"w.json", .json (.list []), none⟩

def emptyBatch : ParsedData := ⟨[], [], none, 0, 0, 0, []⟩

/-- C5 witness: the count invariants applied to a concrete (empty-array)
file. -/
theorem C5_single_file_counts_witness :
    parse_json_file emptyFile false = .ok emptyBatch ∧
    (emptyBatch.total_records = ([] : List PyVal).length ∧
      emptyBatch.success_count =
        emptyBatch.posts.length + emptyBatch.comments.length ∧
      emptyBatch.error_count = emptyBatch.errors.length ∧
      emptyBatch.success_count + emptyBatch.error_count =
        emptyBatch.total_records) :=
  ⟨rfl, C5_single_file_counts.1 emptyFile (.list []) [] emptyBatch rfl rfl rfl⟩

/-- The posts one file contributes to the merge (empty when the per-file
parse raised). -/
def pfPosts (f : ModelFile) : List Post :=
  match parse_json_file f false with
  | .ok r => r.posts
  | .error _ => []

/-- The comments one file contributes to the merge. -/
def pfComments (f : ModelFile) : List Comment :=
  match parse_json_file f false with
  | .ok r => r.comments
  | .error _ => []

/-- The error strings one file contributes to the merge: its own parse
errors on success, exactly one path-prefixed string on an exception. -/
def pfErrors (f : ModelFile) : List String :=
  match parse_json_file f false with
  | .ok r => r.errors
  | .error e => [f.path ++ ": " ++ e.message]

/-- The record count one file contributes to the merge. -/
def pfTotal (f : ModelFile) : Nat :=
  match parse_json_file f false with
  | .ok r => r.total_records
  | .error _ => 0

/-- The platform one file contributes to the merge. -/
def pfPlatform (f : ModelFile) : Option Platform :=
  match parse_json_file f false with
  | .ok r => r.platform
  | .error _ => none

/-- The multi-file fold is the per-file concatenation: every file is
processed, each contributing its parses or exactly one path-prefixed error
string. -/
theorem foldl_stepFile (files : List ModelFile) (st : MergeState) :
    files.foldl stepFile st =
      { posts := st.posts ++ files.flatMap pfPosts,
        comments := st.comments ++ files.flatMap pfComments,
        errors := st.errors ++ files.flatMap pfErrors,
        total := st.total + (files.map pfTotal).sum,
        detected := match st.detected with
          | some p => some p
          | none => files.findSome? pfPlatform } := by
  induction files generalizing st with
  | nil =>
    cases st with
    | mk posts comments errors total detected =>
      cases detected <;> simp
  | cons f files ih =>
    rw [List.foldl_cons, ih]
    have hstep : stepFile st f =
        { posts := st.posts ++ pfPosts f,
          comments := st.comments ++ pfComments f,
          errors := st.errors ++ pfErrors f,
          total := st.total + pfTotal f,
          detected := match st.detected with
            | some p => some p
            | none => pfPlatform f } := by
      unfold stepFile pfPosts pfComments pfErrors pfTotal pfPlatform
      cases hp : parse_json_file f false with
      | ok r => rfl
      | error e => cases st with
        | mk posts comments errors total detected =>
          cases detected <;> simp
    rw [hstep]
    simp only [List.flatMap_cons, List.map_cons, List.sum_cons]
    cases hd : st.detected with
    | some p => simp [List.append_assoc]; omega
    | none =>
      cases hq : pfPlatform f with
      | some q => simp [List.append_assoc, List.findSome?_cons, hq]; omega
      | none => simp [List.append_assoc, List.findSome?_cons, hq]; omega

/-- C8: multi-file ingestion calls the single-file ingestor per path without
internal dedup inside a per-file error boundary.  With the final dedup off,
posts, comments and errors are the per-file concatenations over ALL files
(no exception aborts the batch), a raising file contributes exactly one
error string equal to its path ++ ": " ++ str(e), total_records is the sum
of the per-file totals and the merged platform is the first non-null
per-file platform; with the default final dedup on, errors, total_records
and platform are unchanged. -/
theorem C8_per_file_error_boundary (files : List ModelFile) :
    (parse_json_files files false).posts = files.flatMap pfPosts ∧
    (parse_json_files files false).comments = files.flatMap pfComments ∧
    (parse_json_files files false).errors = files.flatMap pfErrors ∧
    (parse_json_files files false).total_records = (files.map pfTotal).sum ∧
    (parse_json_files files false).platform = files.findSome? pfPlatform ∧
    (parse_json_files files false).success_count =
      (files.flatMap pfPosts).length + (files.flatMap pfComments).length ∧
    (∀ f e, parse_json_file f false = .error e →
      pfErrors f = [f.path ++ ": " ++ e.message]) ∧
    (∀ f r, parse_json_file f false = .ok r → pfErrors f = r.errors) ∧
    (parse_json_files files true).errors = (parse_json_files files false).errors ∧
    (parse_json_files files true).total_records =
      (parse_json_files files false).total_records ∧
    (parse_json_files files true).platform =
      (parse_json_files files false).platform := by
  have hfold := foldl_stepFile files ⟨[], [], [], 0, none⟩
  have hfalse : parse_json_files files false =
      { posts := files.flatMap pfPosts,
        comments := files.flatMap pfComments,
        platform := files.findSome? pfPlatform,
        total_records := (files.map pfTotal).sum,
        success_count := (files.flatMap pfPosts).length +
          (files.flatMap pfComments).length,
        error_count := (files.flatMap pfErrors).length,
        errors := files.flatMap pfErrors } := by
    unfold parse_json_files
    rw [hfold]
    simp
  refine ⟨by rw [hfalse], by rw [hfalse], by rw [hfalse], by rw [hfalse],
    by rw [hfalse], by rw [hfalse], ?_, ?_, ?_, ?_, ?_⟩
  · intro f e he
    unfold pfErrors
    rw [he]
  · intro f r hr
    unfold pfErrors
    rw [hr]
  all_goals
    have hproj : ∀ b, (parse_json_files files b).errors = files.flatMap pfErrors ∧
        (parse_json_files files b).total_records = (files.map pfTotal).sum ∧
        (parse_json_files files b).platform = files.findSome? pfPlatform := by
      intro b
      unfold parse_json_files
      rw [hfold]
      dsimp only
      refine ⟨?_, ?_, ?_⟩ <;> (split <;> simp [ParsedData.deduplicate])
  · rw [(hproj true).1, (hproj false).1]
  · rw [(hproj true).2.1, (hproj false).2.1]
  · rw [(hproj true).2.2, (hproj false).2.2]

/-- The posts of a batch sharing one dedup key, in order. -/
def postGroup (pd : ParsedData) (k : String × String) : List Post :=
  keyGroup postKey pd.posts k

/-- C3: deduplicate resolves duplicates by a last-write-wins scan against
the retained candidate, strictly-later capture time winning when both are
non-null; consequently in every (platform, content_id) group with at least
two posts all carrying capture times, exactly one post survives, it is a
member of the group, and its capture time is greater than or equal to every
capture time in the group (i.e. the maximum), however many duplicates the
group has. -/
theorem C3_dedup_keeps_latest (pd : ParsedData) (k : String × String)
    (h2 : 2 ≤ (postGroup pd k).length)
    (hall : ∀ p ∈ postGroup pd k, p.crawl_time.isSome) :
    ∃ s t, pd.deduplicate.posts.filter (fun p => postKey p = k) = [s] ∧
      s ∈ postGroup pd k ∧ s.crawl_time = some t ∧
      ∀ p ∈ postGroup pd k, ∀ tp, p.crawl_time = some tp →
        pyDtLe tp t = true := by
  have hfil := lastWriteWins_filter postKey keepLaterPost keepLaterPost_key pd.posts k
  have hposts : pd.deduplicate.posts = lastWriteWins postKey keepLaterPost pd.posts := rfl
  rw [hposts, hfil]
  cases hg : postGroup pd k with
  | nil =>
    rw [hg] at h2
    simp at h2
  | cons a g =>
    rw [show keyGroup postKey pd.posts k = a :: g from hg]
    have hamem : a ∈ postGroup pd k := by rw [hg]; exact List.mem_cons_self a g
    obtain ⟨ta, hta⟩ := Option.isSome_iff_exists.mp (hall a hamem)
    obtain ⟨tr, hr1, hr2, hr3⟩ := foldl_keepLaterPost_rank g a ta hta
      (fun x hx => hall x (by rw [hg]; exact List.mem_cons_of_mem a hx))
    refine ⟨g.foldl keepLaterPost a, tr, rfl, ?_, hr1, ?_⟩
    · exact foldl_keepLaterPost_mem g a
    · intro p hp tp htp
      rcases List.mem_cons.mp hp with hpa | hpg
      · subst hpa
        rw [hta] at htp
        cases htp
        simp only [pyDtLe, decide_eq_true_eq]
        exact hr2
      · have hb := hr3 p hpg tp htp
        simp only [pyDtLe, decide_eq_true_eq]
        exact hb

/-- C9: when every member of a key group carries the same non-null capture
time, the strict comparison never prefers the newcomer, so the survivor is
the first record of the group in iteration order (take 1), not the last. -/
theorem C9_equal_times_keep_first (pd : ParsedData) (k : String × String) (t : PyDateTime)
    (hne : postGroup pd k ≠ [])
    (hall : ∀ p ∈ postGroup pd k, p.crawl_time = some t) :
    pd.deduplicate.posts.filter (fun p => postKey p = k) =
      (postGroup pd k).take 1 := by
  have hfil := lastWriteWins_filter postKey keepLaterPost keepLaterPost_key pd.posts k
  have hposts : pd.deduplicate.posts = lastWriteWins postKey keepLaterPost pd.posts := rfl
  rw [hposts, hfil]
  cases hg : postGroup pd k with
  | nil => exact absurd hg hne
  | cons a g =>
    rw [show keyGroup postKey pd.posts k = a :: g from hg]
    have hconst : g.foldl keepLaterPost a = a :=
      foldl_keepLaterPost_const g a t
        (hall a (by rw [hg]; exact List.mem_cons_self a g))
        (fun x hx => hall x (by rw [hg]; exact List.mem_cons_of_mem a hx))
    dsimp only
    rw [hconst]
    simp

-- concrete batches for the C3 and C9 witnesses
def dtW (d : Nat) : PyDateTime := ⟨2024, 1, d, 0, 0, 0, none⟩

def pdLatest : ParsedData :=
  { posts := [mkPostW "w" (some (dtW 1)) "f1", mkPostW "w" (some (dtW 3)) "f2",
      mkPostW "w" (some (dtW 2)) "f3"],
    comments := [], platform := some .dy, total_records := 3,
    success_count := 3, error_count := 0, errors := [] }

def pdTie : ParsedData :=
  { posts := [mkPostW "w" (some (dtW 5)) "first", mkPostW "w" (some (dtW 5)) "second"],
    comments := [], platform := some .dy, total_records := 2,
    success_count := 2, error_count := 0, errors := [] }

/-- C3 witness: a batch with three duplicates whose middle record carries
the latest capture time. -/
theorem C3_dedup_keeps_latest_witness :
    2 ≤ (postGroup pdLatest ("dy", "w")).length ∧
    (∀ p ∈ postGroup pdLatest ("dy", "w"), p.crawl_time.isSome) ∧
    (∃ s t, pdLatest.deduplicate.posts.filter
        (fun p => postKey p = ("dy", "w")) = [s] ∧
      s ∈ postGroup pdLatest ("dy", "w") ∧ s.crawl_time = some t ∧
      ∀ p ∈ postGroup pdLatest ("dy", "w"), ∀ tp, p.crawl_time = some tp →
        pyDtLe tp t = true) :=
  ⟨by decide, by decide, C3_dedup_keeps_latest pdLatest ("dy", "w") (by decide) (by decide)⟩

/-- C9 witness: two records with equal capture times; the first survives. -/
theorem C9_equal_times_keep_first_witness :
    postGroup pdTie ("dy", "w") ≠ [] ∧
    (∀ p ∈ postGroup pdTie ("dy", "w"), p.crawl_time = some (dtW 5)) ∧
    pdTie.deduplicate.posts.filter (fun p => postKey p = ("dy", "w")) =
      (postGroup pdTie ("dy", "w")).take 1 :=
  ⟨List.ne_nil_of_length_pos (by decide), by decide,
   C9_equal_times_keep_first pdTie ("dy", "w") (dtW 5) (List.ne_nil_of_length_pos (by decide))
     (by decide)⟩

/-- The comment conflict resolution returns one of its arguments. -/
theorem keepLaterComment_mem (a b : Comment) :
    keepLaterComment a b = a ∨ keepLaterComment a b = b := by
  unfold keepLaterComment
  rcases hb : b.crawl_time with _ | tn <;> rcases ha : a.crawl_time with _ | te <;>
    simp [hb, ha]
  by_cases h : pyDtLt te tn <;> simp [h]

/-- The comment conflict resolution preserves the shared key. -/
theorem keepLaterComment_key (a b : Comment) (h : commentKey a = commentKey b) :
    commentKey (keepLaterComment a b) = commentKey b := by
  rcases keepLaterComment_mem a b with hm | hm <;> rw [hm]
  exact h

/-- C4: deduplication is idempotent: deduplicating an already-deduplicated
batch returns an identical batch in every field, and the deduplication
statistics of a deduplicated batch report zero duplicate posts, zero
duplicate comments and zero total duplicates. -/
theorem C4_deduplicate_idempotent (pd : ParsedData) :
    pd.deduplicate.deduplicate = pd.deduplicate ∧
    pd.deduplicate.deduplication_stats = ⟨0, 0, 0⟩ := by
  have hpk : ((lastWriteWins postKey keepLaterPost pd.posts).map postKey).Nodup :=
    map_key_lastWriteWins_nodup postKey keepLaterPost keepLaterPost_key pd.posts
  have hck : ((lastWriteWins commentKey keepLaterComment pd.comments).map
      commentKey).Nodup :=
    map_key_lastWriteWins_nodup commentKey keepLaterComment keepLaterComment_key
      pd.comments
  have h1 : lastWriteWins postKey keepLaterPost
      (lastWriteWins postKey keepLaterPost pd.posts) =
      lastWriteWins postKey keepLaterPost pd.posts :=
    lastWriteWins_nodup_eq postKey keepLaterPost _ hpk
  have h2 : lastWriteWins commentKey keepLaterComment
      (lastWriteWins commentKey keepLaterComment pd.comments) =
      lastWriteWins commentKey keepLaterComment pd.comments :=
    lastWriteWins_nodup_eq commentKey keepLaterComment _ hck
  constructor
  · show ParsedData.deduplicate _ = _
    unfold ParsedData.deduplicate
    simp only [h1, h2]
  · show ParsedData.deduplication_stats _ = _
    unfold ParsedData.deduplication_stats ParsedData.deduplicate
    simp only []
    have hz1 : dupKeyCount ((lastWriteWins postKey keepLaterPost pd.posts).map
        postKey) = 0 := dupKeyCount_eq_zero_of_nodup _ hpk
    have hz2 : dupKeyCount ((lastWriteWins commentKey keepLaterComment
        pd.comments).map commentKey) = 0 := dupKeyCount_eq_zero_of_nodup _ hck
    simp [hz1, hz2]
